import Mathlib

/-!
Verification development for the Poshub package-tracking backend.

The definitions below are a shallow embedding of the carrier
auto-detection and asynchronous tracking-fulfillment pipeline:

* `detectCarrierFromTrackingNumber` embeds the pattern classifier of
  `src/routes/tracking.js` (lines 250-282);
* `workerEffects` embeds the asynchronous worker
  `processTrackingAsync` of `src/routes/external.js` (lines 429-539)
  as the sequence of externally visible effects it performs (the
  variant in `src/routes/tracking.js` lines 787-849 is the same code
  without the webhook blocks, i.e. the special case `cb = none`);
* `applyOp` embeds the mutating HTTP endpoints of
  `src/routes/tracking.js` and `src/routes/external.js` as a
  transition system over the persisted store.

Machine-level collaborators that are not part of the repository's
`src/` tree (the carrier adapter factory) are modelled as opaque
parameters of the transition system.
-/

namespace Poshub

/-- JavaScript `\s` character class, restricted to the ASCII range
(the tracking numbers under study contain no exotic whitespace). -/
def jsWhitespace (c : Char) : Bool :=
  c = ' ' || c = '\t' || c = '\n' || c = '\r' || c = '\x0b' || c = '\x0c'

/-- Character class `[0-9A-Z]`. -/
def alnumUpper (c : Char) : Bool :=
  c.isDigit || c.isUpper

/-- Regex `/^1Z[0-9A-Z]{16}$/` (first UPS pattern). -/
def upsPlain : List Char → Bool
  | '1' :: 'Z' :: rest => rest.length == 16 && rest.all alnumUpper
  | _ => false

/-- Regex `/^1Z\s[0-9A-Z\s]+$/` (second UPS pattern). -/
def upsSpaced : List Char → Bool
  | '1' :: 'Z' :: c :: rest =>
      jsWhitespace c && !rest.isEmpty &&
        rest.all (fun d => alnumUpper d || jsWhitespace d)
  | _ => false

/-- Regex `/^[0-9]{10,}$/` (third UPS pattern, the broad digits fallback). -/
def upsDigits (l : List Char) : Bool :=
  decide (10 ≤ l.length) && l.all Char.isDigit

/-- Disjunction of the three UPS patterns of the classifier table. -/
def matchesUPS (l : List Char) : Bool :=
  upsPlain l || upsSpaced l || upsDigits l

/-- Regexes `/^[0-9]{12}$/` and `/^[0-9]{14}$/` (FedEx patterns). -/
def matchesFedEx (l : List Char) : Bool :=
  (l.length == 12 || l.length == 14) && l.all Char.isDigit

/-- Regex `/^[A-Z]{2}[0-9]{9}[A-Z]{2}$/` (first USPS pattern). -/
def uspsLetters (l : List Char) : Bool :=
  l.length == 13 &&
  (l.take 2).all Char.isUpper &&
  ((l.drop 2).take 9).all Char.isDigit &&
  (l.drop 11).all Char.isUpper

/-- Regex `/^[0-9]{4}\s[0-9]{4}\s[0-9]{4}\s[0-9]{4}$/` (second USPS pattern). -/
def uspsQuads (l : List Char) : Bool :=
  l.length == 19 &&
  (l.take 4).all Char.isDigit &&
  ((l.drop 5).take 4).all Char.isDigit &&
  ((l.drop 10).take 4).all Char.isDigit &&
  ((l.drop 15).take 4).all Char.isDigit &&
  (match l[4]?, l[9]?, l[14]? with
   | some a, some b, some c => jsWhitespace a && jsWhitespace b && jsWhitespace c
   | _, _, _ => false)

/-- Disjunction of the two USPS patterns of the classifier table. -/
def matchesUSPS (l : List Char) : Bool :=
  uspsLetters l || uspsQuads l

/-- Regex `/^[0-9]{10,11}$/` (DHL pattern). -/
def matchesDHL (l : List Char) : Bool :=
  (l.length == 10 || l.length == 11) && l.all Char.isDigit

/-- Regex `/^TBA[0-9]{10}$/` (Amazon pattern). -/
def matchesAmazon : List Char → Bool
  | 'T' :: 'B' :: 'A' :: rest => rest.length == 10 && rest.all Char.isDigit
  | _ => false

/-- `detectCarrierFromTrackingNumber` of `src/routes/tracking.js`
(lines 250-282): the pattern table is iterated in object-literal
insertion order UPS, FedEx, USPS, DHL, Amazon and the first carrier
with a matching pattern is returned; `none` models the function's
`null` result for an unrecognised pattern. -/
def detectCarrierFromTrackingNumber (s : String) : Option String :=
  let l := s.toList
  if matchesUPS l then some "UPS"
  else if matchesFedEx l then some "FedEx"
  else if matchesUSPS l then some "USPS"
  else if matchesDHL l then some "DHL"
  else if matchesAmazon l then some "Amazon"
  else none

example : detectCarrierFromTrackingNumber "9400111206213859496247" = some "UPS" := by decide
example : detectCarrierFromTrackingNumber "1Z12345678901234AB" = some "UPS" := by decide
example : detectCarrierFromTrackingNumber "123456789012" = some "UPS" := by decide
example : detectCarrierFromTrackingNumber "TBA1234567890" = some "Amazon" := by decide
example : detectCarrierFromTrackingNumber "notanumber" = none := by decide
example : detectCarrierFromTrackingNumber "AB123456789CD" = some "USPS" := by decide
example : detectCarrierFromTrackingNumber "1234 5678 9012 3456" = some "USPS" := by decide

/-- The `status` column of `tracking_requests`, a closed set of string
values in the source: `'awaiting_carrier'`, `'pending'`,
`'processing'`, `'completed'`, `'failed'`. -/
inductive Status where
  | awaitingCarrier
  | pending
  | processing
  | completed
  | failed
deriving DecidableEq, Repr

/-- Terminal statuses of the lifecycle. -/
def Status.isTerminal : Status → Bool
  | .completed => true
  | .failed => true
  | _ => false

/-- The object the carrier adapters resolve a tracking call to.  On the
success path `BaseCarrier.standardizeData` produces the shipment
fields; on the error path `BaseCarrier.handleError` produces
`success: false` with an `error` message.  `processTrackingAsync`
branches on `trackingData.success`. -/
structure TrackData where
  success : Bool
  error : String
  trackingNumber : String
  carrier : String
  expectedDeliveryDate : Option String
  currentStatus : String
  currentLocation : String
  shippedDate : Option String
  rawData : String
deriving DecidableEq, Repr

/-- Outcome of `carrierService.trackPackage`: the promise either
rejects with an error message or resolves to a `TrackData`. -/
inductive AdapterOutcome where
  | throws (msg : String)
  | returns (d : TrackData)
deriving DecidableEq, Repr

/-- The carrier factory singleton (carrier-factory.js, staged in
`src/TRACKING_API_COMPATIBILITY.md` lines 137-220 after the document
separator): `initializeCarriers` registers the USPS adapter — under
the two map keys `USPS` and `usps` — exactly when
`process.env.USPS_USER_ID` is set, and registers nothing else (the
other carriers are a TODO).  The environment records whether that
registration happened (`uspsConfigured`), the value the instance's
`isServiceActive()` gives (`uspsActive`, i.e. `isActive && apiKey`),
and the outcome a `usps.trackPackage` call yields in the run under
study (`uspsOutcome`). -/
structure Env where
  uspsConfigured : Bool
  uspsActive : Bool
  uspsOutcome : AdapterOutcome

/-- A row of the `tracking_requests` table, restricted to the columns
the claims are about.  `carrierId` is the nullable foreign key into
the `carriers` table; `callbackUrl` is the piece of the `metadata`
JSON bag that the worker reads back. -/
structure TrackingRecord where
  userId : String
  trackingNumber : String
  carrierId : Option String
  status : Status
  callbackUrl : Option String
deriving DecidableEq, Repr

/-- The persisted store: `tracking_requests` rows keyed by id,
`shipments` rows keyed by their `tracking_request_id` (the `upsert`
key used by the worker), and the id generator. -/
structure Db where
  requests : List (Nat × TrackingRecord)
  shipments : List (Nat × TrackData)
  nextId : Nat
deriving DecidableEq, Repr

/-- First value stored under a key of an association list (the shape
of a Prisma lookup by primary key). -/
def lookupAssoc {α : Type} : List (Nat × α) → Nat → Option α
  | [], _ => none
  | p :: rest, id => if p.1 == id then some p.2 else lookupAssoc rest id

/-- Row lookup by primary key. -/
def Db.findReq (db : Db) (id : Nat) : Option TrackingRecord :=
  lookupAssoc db.requests id

/-- The shipment row attached to a tracking request, if any. -/
def Db.findShipment (db : Db) (id : Nat) : Option TrackData :=
  lookupAssoc db.shipments id

/-- The `carriers` table restricted to what `getCarrierId` reads:
carrier `name` paired with row `id`. -/
def CarrierTable := List (String × String)

/-- ASCII uppercase of one character (the inputs under study are
ASCII, where JavaScript `toUpperCase` agrees with this map). -/
def asciiUpper (c : Char) : Char :=
  if c.isLower then Char.ofNat (c.toNat - 32) else c

/-- ASCII `toUpperCase` on a string. -/
def upperName (s : String) : String := String.mk (s.data.map asciiUpper)

/-- ASCII lowercase of one character (JavaScript `toLowerCase` on the
inputs under study). -/
def asciiLower (c : Char) : Char :=
  if c.isUpper then Char.ofNat (c.toNat + 32) else c

/-- ASCII `toLowerCase` on a string. -/
def lowerName (s : String) : String := String.mk (s.data.map asciiLower)

/-- `getCarrierId` of both route files: `findUnique` on
`name = carrierName.toUpperCase()`, yielding the row id or
`undefined`. -/
def getCarrierId (tbl : CarrierTable) (carrierName : String) : Option String :=
  (tbl.find? (fun p => p.1 == upperName carrierName)).map Prod.snd

/-- The factory's `carriers` map after `initializeCarriers`, as an
association list in insertion order. -/
def Env.carriers (env : Env) : List (String × AdapterOutcome) :=
  if env.uspsConfigured then [("USPS", env.uspsOutcome), ("usps", env.uspsOutcome)]
  else []

/-- `CarrierFactory.getCarrier`: null for a falsy name, otherwise
`this.carriers.get(carrierName.toUpperCase()) ||
this.carriers.get(carrierName.toLowerCase())`. -/
def Env.getCarrier (env : Env) (name : String) : Option AdapterOutcome :=
  if name == "" then none
  else
    ((env.carriers.find? (fun p => p.1 == upperName name)).map Prod.snd).orElse
      (fun _ => (env.carriers.find? (fun p => p.1 == lowerName name)).map Prod.snd)

/-- `CarrierFactory.isCarrierAvailable`: the name resolves to a
registered carrier and that carrier's `isServiceActive()` holds (the
only instance ever registered is the USPS one). -/
def Env.isCarrierAvailable (env : Env) (name : String) : Bool :=
  match env.getCarrier name with
  | some _ => env.uspsActive
  | none => false

/-- A JSON value as far as the webhook bodies need: strings, numbers,
and an embedded adapter-result object. -/
inductive JVal where
  | str (s : String)
  | num (n : Nat)
  | track (d : TrackData)
deriving DecidableEq, Repr

/-- One externally visible step of the asynchronous worker: a status
update of a `tracking_requests` row, a `shipments` upsert, a call into
the carrier adapter, or an outbound HTTP POST (whose `delivered` flag
records whether the endpoint was reachable; the code ignores it beyond
logging). -/
inductive Effect where
  | statusWrite (reqId : Nat) (st : Status)
  | shipmentUpsert (reqId : Nat) (d : TrackData)
  | adapterCall (trackingNumber : String)
  | httpPost (delivered : Bool) (url : String) (contentType : String)
      (userAgent : String) (body : List (String × JVal))
deriving DecidableEq, Repr

/-- Body of the success webhook (`external.js` lines 486-493), with the
exact JSON keys the code writes. -/
def successBody (id : Nat) (n c ts : String) (d : TrackData) : List (String × JVal) :=
  [("trackingId", .num id), ("trackingNumber", .str n), ("status", .str "completed"),
   ("carrier", .str c), ("shipment", .track d), ("timestamp", .str ts)]

/-- Body of the failure webhook (`external.js` lines 520-526). -/
def failureBody (id : Nat) (n c ts msg : String) : List (String × JVal) :=
  [("trackingId", .num id), ("trackingNumber", .str n), ("status", .str "failed"),
   ("carrier", .str c), ("error", .str msg), ("timestamp", .str ts)]

/-- The catch block of `processTrackingAsync` (`external.js` lines
507-538): mark the request failed, then best-effort fire the failure
webhook when a callback URL is on record. -/
def failTail (id : Nat) (n c : String) (cb : Option String) (ts msg : String)
    (cbOk : Bool) : List Effect :=
  Effect.statusWrite id .failed ::
  (match cb with
   | some url =>
       [Effect.httpPost cbOk url "application/json" "PostalHub-External-API/1.0"
         (failureBody id n c ts msg)]
   | none => [])

/-- `processTrackingAsync` of `src/routes/external.js` (lines 429-539)
as the list of effects one invocation performs, in program order:
unconditionally set `status = 'processing'`; resolve the adapter
(throwing `Carrier ... not found` when the factory yields nothing);
call `trackPackage`; on a result with `success` falsy throw its
`error`; otherwise upsert the shipment row, set
`status = 'completed'`, and best-effort fire the success webhook.
Every thrown error lands in the catch block `failTail`.  The variant
in `src/routes/tracking.js` (lines 787-849) is this code without the
two webhook blocks, i.e. the case `cb = none`. -/
def workerEffects (env : Env) (id : Nat) (n c : String) (cb : Option String)
    (ts : String) (cbOk : Bool) : List Effect :=
  Effect.statusWrite id .processing ::
  (match env.getCarrier c with
   | none => failTail id n c cb ts ("Carrier " ++ c ++ " not found") cbOk
   | some (.throws m) => Effect.adapterCall n :: failTail id n c cb ts m cbOk
   | some (.returns d) =>
       Effect.adapterCall n ::
       (if d.success then
          Effect.shipmentUpsert id d ::
          Effect.statusWrite id .completed ::
          (match cb with
           | some url =>
               [Effect.httpPost cbOk url "application/json" "PostalHub-External-API/1.0"
                 (successBody id n c ts d)]
           | none => [])
        else failTail id n c cb ts d.error cbOk))

/-- Rewrite the value stored under a key of an association list (the
shape of a Prisma `update` on a primary key). -/
def updAssoc {α : Type} : List (Nat × α) → Nat → (α → α) → List (Nat × α)
  | [], _, _ => []
  | p :: rest, id, g =>
      if p.1 == id then (p.1, g p.2) :: updAssoc rest id g
      else p :: updAssoc rest id g

/-- `prisma.trackingRequest.update` restricted to the `status` field:
rewrite the row with the given primary key. -/
def setStatus (db : Db) (id : Nat) (st : Status) : Db :=
  { db with requests := updAssoc db.requests id (fun r => { r with status := st }) }

/-- `prisma.shipment.upsert` keyed on `trackingRequestId`. -/
def upsertShipment (db : Db) (id : Nat) (d : TrackData) : Db :=
  if (db.shipments.find? (fun p => p.1 == id)).isSome then
    { db with shipments := updAssoc db.shipments id (fun _ => d) }
  else
    { db with shipments := (id, d) :: db.shipments }

/-- Interpretation of one worker effect against the store; adapter
calls and HTTP posts do not touch the store. -/
def applyEffect (db : Db) : Effect → Db
  | .statusWrite id st => setStatus db id st
  | .shipmentUpsert id d => upsertShipment db id d
  | .adapterCall _ => db
  | .httpPost _ _ _ _ _ => db

/-- Fold a list of effects over the store. -/
def applyEffects (db : Db) (l : List Effect) : Db :=
  l.foldl applyEffect db

/-- One scheduled background invocation of `processTrackingAsync`
(the fire-and-forget call sites pass the request id, the tracking
number, the carrier name, and - on the external routes - the
callback data). -/
structure WorkerTask where
  reqId : Nat
  trackingNumber : String
  carrierName : String
  cb : Option String
deriving DecidableEq, Repr

/-- Full system state: the persisted store plus the worker invocations
that have been fired but have not run yet. -/
structure Sys where
  db : Db
  tasks : List WorkerTask
deriving DecidableEq, Repr

/-- The HTTP responses of the mutating endpoints, reduced to the
shapes the claims distinguish. -/
inductive Response where
  | created (id : Nat) (st : Status)
  | duplicate (id : Nat) (st : Status)
  | validationError
  | carrierUnavailable
  | carrierUndetermined
  | carrierNotInDb
  | notFoundResp
  | carrierAlreadySet
  | serverError
  | okResp
deriving DecidableEq, Repr

/-- The `isIn` whitelist of the `carrier`/`brand` validators of
`POST /api/tracking/track`, `POST /api/external/track`,
`PUT .../carrier` and `PUT /api/tracking/update`. -/
def apiCarriers : List String := ["USPS", "UPS", "FedEx", "DHL"]

/-- The `isIn` whitelist of the (uppercase-sanitized) `brand` field of
`POST /api/tracking/add`. -/
def addBrands : List String := ["USPS", "UPS", "FEDEX", "DHL", "AMAZON", "OTHER"]

/-- The 8-50 character validator on `trackingNumber`. -/
def validLen (n : String) : Bool :=
  decide (8 ≤ n.length) && decide (n.length ≤ 50)

/-- The `prisma.trackingRequest.findFirst` duplicate probe shared by
the submit endpoints: match on `userId` and `trackingNumber`, and on
`carrierId` only when a carrier row id is actually in hand (a Prisma
`where` silently drops an `undefined` field, and
`...(carrierId && { carrierId })` spreads nothing for a falsy one). -/
def findDuplicate (db : Db) (u n : String) (cid : Option String) :
    Option (Nat × TrackingRecord) :=
  db.requests.find? (fun p =>
    p.2.userId == u && p.2.trackingNumber == n &&
    (match cid with
     | some c => p.2.carrierId == some c
     | none => true))

/-- Row lookup scoped to the owner (`findFirst` on `id` and `userId`). -/
def findOwned (db : Db) (u : String) (id : Nat) : Option TrackingRecord :=
  (db.requests.find? (fun p => p.1 == id && p.2.userId == u)).map Prod.snd

/-- Append a fresh `tracking_requests` row and bump the id generator. -/
def createReq (db : Db) (r : TrackingRecord) : Db :=
  { db with requests := db.requests ++ [(db.nextId, r)], nextId := db.nextId + 1 }

/-- The mutating operations offered by `src/routes/tracking.js` and
`src/routes/external.js` (the GET endpoints read only; the dev-only
seed endpoint writes the fixed carrier rows modelled by the
`CarrierTable` parameter).  `runTask` is the deferred execution of one
fired `processTrackingAsync` invocation, carrying the wall-clock
string and the reachability of the webhook endpoint for that run. -/
inductive Op where
  | submitTrack (u n c : String)
  | submitAdd (u n : String) (brand : Option String)
  | submitExternal (u n : String) (c : Option String) (cbUrl : Option String)
  | assignCarrier (u : String) (tid : Nat) (c : String)
  | updateTracking (u : String) (tid : Nat) (n : Option String) (brand : Option String)
  | deleteTracking (u : String) (tid : Nat)
  | runTask (t : WorkerTask) (ts : String) (cbOk : Bool)

/-- `POST /api/tracking/track` (tracking.js lines 15-95): validate,
check factory availability, duplicate-probe on the
(`userId`, `trackingNumber`, `carrierId`) triple, create a `pending`
row and fire the worker.  When `getCarrierId` resolves nothing,
Prisma drops the `undefined` value in both calls: the probe ignores
the carrier and the `create` stores the nullable `carrierId` column as
null, still answering 201 and firing the worker. -/
def doSubmitTrack (env : Env) (tbl : CarrierTable) (s : Sys) (u n c : String) :
    Sys × Response :=
  if !(validLen n && apiCarriers.contains c) then (s, .validationError)
  else if !env.isCarrierAvailable c then (s, .carrierUnavailable)
  else
    match findDuplicate s.db u n (getCarrierId tbl c) with
    | some (i, r) => (s, .duplicate i r.status)
    | none =>
        ({ db := createReq s.db
             { userId := u, trackingNumber := n, carrierId := getCarrierId tbl c,
               status := .pending, callbackUrl := none },
           tasks := s.tasks ++ [{ reqId := s.db.nextId, trackingNumber := n,
                                  carrierName := c, cb := none }] },
         .created s.db.nextId .pending)

/-- The normalization step of `POST /api/tracking/add`: the database
stores `FedEx` and `Amazon` with mixed case, so the uppercase
sanitized brand is mapped back before the lookup. -/
def normalizeBrand (b : String) : String :=
  if b == "FEDEX" then "FedEx"
  else if b == "AMAZON" then "Amazon"
  else b

/-- The brand-selection step of `POST /api/tracking/add`: run the
classifier when the (uppercase-sanitized) brand is absent or `OTHER`,
otherwise pass the given brand through. -/
def addDetectedBrand (brand : Option String) (n : String) : Option String :=
  match brand.map upperName with
  | none => detectCarrierFromTrackingNumber n
  | some "OTHER" => detectCarrierFromTrackingNumber n
  | some b => some b

/-- `POST /api/tracking/add` (tracking.js lines 289-445): optional
uppercase-sanitized `brand`; auto-detect via the classifier when the
brand is absent or `OTHER` (400 when detection fails); normalize
`FEDEX`/`AMAZON` to the database spellings; resolve the carrier row
(400 when absent); duplicate-probe on the triple; create `pending`;
fire the worker only when the factory reports the carrier
available. -/
def doSubmitAdd (env : Env) (tbl : CarrierTable) (s : Sys) (u n : String)
    (brand : Option String) : Sys × Response :=
  if !(validLen n && (match brand.map upperName with
                      | some b => addBrands.contains b
                      | none => true)) then (s, .validationError)
  else
    match addDetectedBrand brand n with
    | none => (s, .carrierUndetermined)
    | some det0 =>
        match getCarrierId tbl (normalizeBrand det0) with
        | none => (s, .carrierNotInDb)
        | some cidv =>
            match findDuplicate s.db u n (some cidv) with
            | some (i, r) => (s, .duplicate i r.status)
            | none =>
                ({ db := createReq s.db
                     { userId := u, trackingNumber := n, carrierId := some cidv,
                       status := .pending, callbackUrl := none },
                   tasks := s.tasks ++
                     (if env.isCarrierAvailable (normalizeBrand det0) then
                        [{ reqId := s.db.nextId, trackingNumber := n,
                           carrierName := normalizeBrand det0, cb := none }]
                      else []) },
                 .created s.db.nextId .pending)

/-- `POST /api/external/track` (external.js lines 19-160): carrier
optional; when given it must be factory-available and is resolved to a
row id; the duplicate probe constrains the carrier only when a row id
was resolved; the row is created `pending` (with the worker fired)
when a carrier row id is in hand and `awaiting_carrier` (no worker)
otherwise; the callback URL is kept in the metadata bag. -/
def doSubmitExternal (env : Env) (tbl : CarrierTable) (s : Sys) (u n : String)
    (c : Option String) (cbUrl : Option String) : Sys × Response :=
  if !(validLen n && (match c with
                      | some cv => apiCarriers.contains cv
                      | none => true)) then (s, .validationError)
  else
    match c with
    | some cv =>
        if !env.isCarrierAvailable cv then (s, .carrierUnavailable)
        else
          match findDuplicate s.db u n (getCarrierId tbl cv) with
          | some (i, r) => (s, .duplicate i r.status)
          | none =>
              match getCarrierId tbl cv with
              | some cidv =>
                  ({ db := createReq s.db
                       { userId := u, trackingNumber := n, carrierId := some cidv,
                         status := .pending, callbackUrl := cbUrl },
                     tasks := s.tasks ++
                       [{ reqId := s.db.nextId, trackingNumber := n,
                          carrierName := cv, cb := cbUrl }] },
                   .created s.db.nextId .pending)
              | none =>
                  ({ db := createReq s.db
                       { userId := u, trackingNumber := n, carrierId := none,
                         status := .awaitingCarrier, callbackUrl := cbUrl },
                     tasks := s.tasks },
                   .created s.db.nextId .awaitingCarrier)
    | none =>
        match findDuplicate s.db u n none with
        | some (i, r) => (s, .duplicate i r.status)
        | none =>
            ({ db := createReq s.db
                 { userId := u, trackingNumber := n, carrierId := none,
                   status := .awaitingCarrier, callbackUrl := cbUrl },
               tasks := s.tasks },
             .created s.db.nextId .awaitingCarrier)

/-- `PUT /api/external/track/:trackingId/carrier` (external.js lines
167-259): 404 unless the row belongs to the caller, 400 when a carrier
is already set or the factory reports the carrier unavailable; then
the row is updated (Prisma drops an `undefined` `carrierId`, so a
failed `getCarrierId` leaves the column untouched while `status` still
becomes `pending`) and the worker is fired with the stored callback
URL. -/
def doAssignCarrier (env : Env) (tbl : CarrierTable) (s : Sys) (u : String)
    (tid : Nat) (c : String) : Sys × Response :=
  if !apiCarriers.contains c then (s, .validationError)
  else
    match findOwned s.db u tid with
    | none => (s, .notFoundResp)
    | some r =>
        if r.carrierId.isSome then (s, .carrierAlreadySet)
        else if !env.isCarrierAvailable c then (s, .carrierUnavailable)
        else
          ({ db := { s.db with requests := (updAssoc s.db.requests tid (fun v =>
               { v with carrierId := (getCarrierId tbl c).orElse (fun _ => v.carrierId),
                        status := Status.pending })) },
             tasks := s.tasks ++ [{ reqId := tid, trackingNumber := r.trackingNumber,
                                    carrierName := c, cb := r.callbackUrl }] },
           .okResp)

/-- `PUT /api/tracking/update` (tracking.js lines 496-599): 404 unless
owned; optional new tracking number; optional new brand, resolved
through `getCarrierId` with a 400 when the row is absent; the status
is never touched and no worker is fired (`applyNum` is the optional
tracking-number replacement of its update payload). -/
def applyNum (n : Option String) (v : TrackingRecord) : TrackingRecord :=
  match n with
  | some nv => { v with trackingNumber := nv }
  | none => v

def doUpdateTracking (tbl : CarrierTable) (s : Sys) (u : String) (tid : Nat)
    (n : Option String) (brand : Option String) : Sys × Response :=
  if !((match n with | some nv => validLen nv | none => true) &&
       (match brand with | some b => apiCarriers.contains b | none => true)) then
    (s, .validationError)
  else
    match findOwned s.db u tid with
    | none => (s, .notFoundResp)
    | some _ =>
        match brand with
        | some b =>
            (match getCarrierId tbl b with
             | none => (s, .carrierNotInDb)
             | some cidv =>
                 ({ db := { s.db with requests := (updAssoc s.db.requests tid (fun v =>
                      { (applyNum n v) with carrierId := some cidv })) },
                    tasks := s.tasks }, .okResp))
        | none =>
            ({ db := { s.db with requests := updAssoc s.db.requests tid (applyNum n) },
               tasks := s.tasks }, .okResp)

/-- `DELETE /api/tracking/delete` (tracking.js lines 605-653): 404
unless owned; removing the row cascades to its shipment. -/
def doDeleteTracking (s : Sys) (u : String) (tid : Nat) : Sys × Response :=
  match findOwned s.db u tid with
  | none => (s, .notFoundResp)
  | some _ =>
      ({ db := { s.db with
           requests := s.db.requests.filter (fun p => !(p.1 == tid)),
           shipments := s.db.shipments.filter (fun p => !(p.1 == tid)) },
         tasks := s.tasks },
       .okResp)

/-- Deferred execution of one fired worker invocation: only scheduled
invocations can run, and a run consumes its task. -/
def doRunTask (env : Env) (s : Sys) (t : WorkerTask) (ts : String) (cbOk : Bool) :
    Sys × Response :=
  if t ∈ s.tasks then
    ({ db := applyEffects s.db
         (workerEffects env t.reqId t.trackingNumber t.carrierName t.cb ts cbOk),
       tasks := s.tasks.erase t },
     .okResp)
  else (s, .serverError)

/-- Small-step interpreter for the operation set. -/
def applyOp (env : Env) (tbl : CarrierTable) (s : Sys) : Op → Sys × Response
  | .submitTrack u n c => doSubmitTrack env tbl s u n c
  | .submitAdd u n brand => doSubmitAdd env tbl s u n brand
  | .submitExternal u n c cbUrl => doSubmitExternal env tbl s u n c cbUrl
  | .assignCarrier u tid c => doAssignCarrier env tbl s u tid c
  | .updateTracking u tid n brand => doUpdateTracking tbl s u tid n brand
  | .deleteTracking u tid => doDeleteTracking s u tid
  | .runTask t ts cbOk => doRunTask env s t ts cbOk

/-- The empty deployment: no rows, no scheduled work. -/
def initSys : Sys := { db := { requests := [], shipments := [], nextId := 0 }, tasks := [] }

/-- Run a list of operations from a state. -/
def runOps (env : Env) (tbl : CarrierTable) (s : Sys) (ops : List Op) : Sys :=
  ops.foldl (fun st op => (applyOp env tbl st op).1) s

/-- States reachable from the empty deployment. -/
def Reachable (env : Env) (tbl : CarrierTable) (s : Sys) : Prop :=
  ∃ ops : List Op, s = runOps env tbl initSys ops

/-- The submit-only operations (the intake endpoints of §4.2). -/
def Op.isSubmit : Op → Prop
  | .submitTrack _ _ _ => True
  | .submitAdd _ _ _ => True
  | .submitExternal _ _ _ _ => True
  | _ => False

/-- States reachable from the empty deployment using only the intake
(submit) endpoints. -/
def SubmitReachable (env : Env) (tbl : CarrierTable) (s : Sys) : Prop :=
  ∃ ops : List Op, (∀ op ∈ ops, op.isSubmit) ∧ s = runOps env tbl initSys ops

/-- Ids of stored rows stay below the id generator (ids are generated,
never reused). -/
def FreshIds (db : Db) : Prop :=
  ∀ p ∈ db.requests, p.1 < db.nextId

/-- Row ids are pairwise distinct (primary key). -/
def KeysDistinct (db : Db) : Prop :=
  (db.requests.map Prod.fst).Nodup

/-- Scheduled worker tasks only mention generated ids. -/
def TasksFresh (s : Sys) : Prop :=
  ∀ t ∈ s.tasks, t.reqId < s.db.nextId

/-- No two scheduled worker tasks target the same request: every fire
site schedules the worker for a freshly created `pending` row or for a
row it just moved out of `awaiting_carrier`. -/
def TasksDistinct (s : Sys) : Prop :=
  (s.tasks.map WorkerTask.reqId).Nodup

/-- A scheduled worker task's target row, when still present, is a
`pending` row with its carrier column set. -/
def TasksPending (s : Sys) : Prop :=
  ∀ t ∈ s.tasks, ∀ r, s.db.findReq t.reqId = some r →
    r.status = Status.pending ∧ r.carrierId.isSome = true

/-- Outside `awaiting_carrier` the carrier column is set. -/
def CarrierSet (db : Db) : Prop :=
  ∀ p ∈ db.requests, p.2.status ≠ Status.awaitingCarrier → p.2.carrierId.isSome = true

/-- The inductive invariant of the transition system. -/
def SysInv (s : Sys) : Prop :=
  FreshIds s.db ∧ KeysDistinct s.db ∧ TasksFresh s ∧ TasksDistinct s ∧
  TasksPending s ∧ CarrierSet s.db

/-- Coherence of the factory with the carrier table: a carrier the
factory reports available has a row under its uppercased name.  Since
the factory only ever registers USPS, this holds for every environment
as soon as the table has a `USPS` row (`envResolves_of_usps`), which
the seeded deployment's table does. -/
def EnvResolves (env : Env) (tbl : CarrierTable) : Prop :=
  ∀ c, env.isCarrierAvailable c = true → (getCarrierId tbl c).isSome = true

/-- No two rows share an owner, tracking number and resolved carrier. -/
def TripleUnique (db : Db) : Prop :=
  ∀ p ∈ db.requests, ∀ q ∈ db.requests, p.1 ≠ q.1 →
    ¬(p.2.userId = q.2.userId ∧ p.2.trackingNumber = q.2.trackingNumber ∧
      p.2.carrierId.isSome = true ∧ p.2.carrierId = q.2.carrierId)

/-- The ways `carrierService.trackPackage` can come back empty-handed:
no adapter registered, a rejected promise, or a
`handleError`-style result with `success: false`. -/
def adapterFails (env : Env) (c : String) : Bool :=
  match env.getCarrier c with
  | none => true
  | some (.throws _) => true
  | some (.returns d) => !d.success

/-- `true` when every `httpPost` in the effect list is preceded by a
terminal status write for the given request (scanning left to right
with a seen-terminal flag). -/
def callbackAfterTerminalGo (id : Nat) (seen : Bool) : List Effect → Bool
  | [] => true
  | .httpPost _ _ _ _ _ :: rest => seen && callbackAfterTerminalGo id seen rest
  | .statusWrite i st :: rest =>
      callbackAfterTerminalGo id (seen || (i == id && st.isTerminal)) rest
  | _ :: rest => callbackAfterTerminalGo id seen rest

/-- Every webhook attempt in the effect list happens strictly after a
terminal status write for the request. -/
def callbackAfterTerminal (id : Nat) (l : List Effect) : Bool :=
  callbackAfterTerminalGo id false l

/-- Sample normalized adapter success (`BaseCarrier.standardizeData`
shape; note the source never sets a `success` field on this path). -/
def sampleTrack : TrackData :=
  { success := true, error := "",
    trackingNumber := "9405511899223197428490", carrier := "USPS",
    expectedDeliveryDate := some "2026-01-02",
    currentStatus := "Delivered", currentLocation := "New York, NY",
    shippedDate := none, rawData := "xml" }

/-- Sample `BaseCarrier.handleError` result. -/
def failedTrack : TrackData :=
  { sampleTrack with success := false,
                     error := "Invalid USPS tracking number format" }

/-- The deployed factory with `USPS_USER_ID` set, the service active
and the USPS lookup succeeding. -/
def env0 : Env :=
  { uspsConfigured := true, uspsActive := true,
    uspsOutcome := .returns sampleTrack }

/-- The same factory with the USPS lookup reporting a failure. -/
def envFail : Env :=
  { uspsConfigured := true, uspsActive := true,
    uspsOutcome := .returns failedTrack }

/-- The seeded `carriers` table (`prisma/seed` and the `/seed` route
insert exactly these names). -/
def tbl0 : CarrierTable :=
  [("USPS", "car-1"), ("UPS", "car-2"), ("FedEx", "car-3"),
   ("DHL", "car-4"), ("Amazon", "car-5")]

/-- A store holding one completed request. -/
def dbCompleted : Db :=
  { requests := [(0, { userId := "u1", trackingNumber := "9405511899223197428490",
                       carrierId := some "car-1", status := .completed,
                       callbackUrl := none })],
    shipments := [], nextId := 1 }

/-- A store holding one pending request and no shipment. -/
def dbPending : Db :=
  { requests := [(7, { userId := "u1", trackingNumber := "9405511899223197428490",
                       carrierId := some "car-1", status := .pending,
                       callbackUrl := some "https://app.example/cb" })],
    shipments := [], nextId := 8 }

/-- A two-operation history: an internal submit for a USPS tracking
number followed by the run of the worker it fired. -/
def opsC3 : List Op :=
  [.submitTrack "u1" "9405511899223197428490" "USPS",
   .runTask { reqId := 0, trackingNumber := "9405511899223197428490",
              carrierName := "USPS", cb := none } "2026-10-12T00:00:00.000Z" true]

/-- The state reached by `opsC3` from the empty deployment: one
completed request. -/
def sysC3 : Sys := runOps env0 tbl0 initSys opsC3

/-- The state after one internal submit from the empty deployment. -/
def sysC6 : Sys :=
  runOps env0 tbl0 initSys [.submitTrack "u1" "9405511899223197428490" "USPS"]

theorem lookupAssoc_updAssoc_self {α : Type} {l : List (Nat × α)} {id : Nat}
    (g : α → α) {r : α} (h : lookupAssoc l id = some r) :
    lookupAssoc (updAssoc l id g) id = some (g r) := by
  induction l with
  | nil => simp [lookupAssoc] at h
  | cons a tail ih =>
      by_cases hk : (a.1 == id) = true
      · simp only [lookupAssoc, hk, if_true] at h
        simp only [updAssoc, hk, if_true, lookupAssoc]
        rw [Option.some.inj h]
      · simp only [lookupAssoc, hk, if_false] at h
        simp only [updAssoc, hk, if_false, lookupAssoc]
        exact ih h

theorem lookupAssoc_updAssoc_other {α : Type} {l : List (Nat × α)} {id i : Nat}
    (g : α → α) (hne : (i == id) = false) :
    lookupAssoc (updAssoc l id g) i = lookupAssoc l i := by
  induction l with
  | nil => simp [updAssoc, lookupAssoc]
  | cons a tail ih =>
      by_cases hk : (a.1 == id) = true
      · have hai : (a.1 == i) = false := by
          have h1 : a.1 = id := by simpa using hk
          have h2 : i ≠ id := by simpa using hne
          simp [h1]
          omega
        simp only [updAssoc, hk, if_true, lookupAssoc, hai, if_false]
        exact ih
      · simp only [updAssoc, hk, if_false, lookupAssoc]
        by_cases hi : (a.1 == i) = true
        · simp [hi]
        · simp only [hi, if_false]
          exact ih

theorem updAssoc_absent {α : Type} {l : List (Nat × α)} {id : Nat} (g : α → α)
    (h : lookupAssoc l id = none) : updAssoc l id g = l := by
  induction l with
  | nil => rfl
  | cons a tail ih =>
      by_cases hk : (a.1 == id) = true
      · simp [lookupAssoc, hk] at h
      · simp only [lookupAssoc, hk] at h
        simp only [updAssoc, hk]
        simp only [Bool.false_eq_true, if_false] at h ⊢
        rw [ih h]

theorem lookupAssoc_append {α : Type} (l₁ l₂ : List (Nat × α)) (i : Nat) :
    lookupAssoc (l₁ ++ l₂) i =
      (match lookupAssoc l₁ i with
       | some v => some v
       | none => lookupAssoc l₂ i) := by
  induction l₁ with
  | nil => simp [lookupAssoc]
  | cons a tail ih =>
      by_cases hk : (a.1 == i) = true
      · simp [lookupAssoc, hk]
      · simp only [List.cons_append, lookupAssoc, hk, if_false]
        exact ih

theorem updAssoc_keys {α : Type} (l : List (Nat × α)) (id : Nat) (g : α → α) :
    (updAssoc l id g).map Prod.fst = l.map Prod.fst := by
  induction l with
  | nil => rfl
  | cons a tail ih =>
      by_cases hk : (a.1 == id) = true
      · simp [updAssoc, hk, ih]
      · simp [updAssoc, hk, ih]

theorem findReq_setStatus_self {db : Db} {id : Nat} {r : TrackingRecord} (st : Status)
    (h : db.findReq id = some r) :
    (setStatus db id st).findReq id = some { r with status := st } :=
  lookupAssoc_updAssoc_self _ h

theorem findReq_setStatus_other {db : Db} {id i : Nat} (st : Status)
    (hne : (i == id) = false) :
    (setStatus db id st).findReq i = db.findReq i :=
  lookupAssoc_updAssoc_other _ hne

theorem setStatus_absent {db : Db} {id : Nat} (st : Status)
    (h : db.findReq id = none) : setStatus db id st = db := by
  unfold setStatus
  rw [updAssoc_absent _ h]

theorem findShipment_setStatus (db : Db) (id : Nat) (st : Status) (i : Nat) :
    (setStatus db id st).findShipment i = db.findShipment i := rfl

theorem upsertShipment_requests (db : Db) (id : Nat) (d : TrackData) :
    (upsertShipment db id d).requests = db.requests := by
  unfold upsertShipment
  split <;> rfl

theorem upsertShipment_nextId (db : Db) (id : Nat) (d : TrackData) :
    (upsertShipment db id d).nextId = db.nextId := by
  unfold upsertShipment
  split <;> rfl

theorem applyEffects_failTail (db : Db) (id : Nat) (n c : String) (cb : Option String)
    (ts msg : String) (cbOk : Bool) :
    applyEffects db (failTail id n c cb ts msg cbOk) = setStatus db id .failed := by
  cases cb <;> simp [failTail, applyEffects, applyEffect]

theorem worker_db_failure {env : Env} {c : String} (hfail : adapterFails env c = true)
    (db : Db) (id : Nat) (n : String) (cb : Option String) (ts : String) (cbOk : Bool) :
    applyEffects db (workerEffects env id n c cb ts cbOk) =
      setStatus (setStatus db id .processing) id .failed := by
  unfold adapterFails at hfail
  unfold workerEffects
  cases hgc : env.getCarrier c with
  | none =>
      simp only [applyEffects, List.foldl_cons]
      exact applyEffects_failTail _ _ _ _ _ _ _ _
  | some oc =>
      rw [hgc] at hfail
      cases oc with
      | throws m =>
          simp only [applyEffects, List.foldl_cons, applyEffect]
          exact applyEffects_failTail _ _ _ _ _ _ _ _
      | returns d =>
          have hs : d.success = false := by simpa using hfail
          simp only [hs, Bool.false_eq_true, if_false, applyEffects,
            List.foldl_cons, applyEffect]
          exact applyEffects_failTail _ _ _ _ _ _ _ _

theorem worker_db_success {env : Env} {c : String} {d : TrackData}
    (hgc : env.getCarrier c = some (.returns d)) (hs : d.success = true)
    (db : Db) (id : Nat) (n : String) (cb : Option String) (ts : String) (cbOk : Bool) :
    applyEffects db (workerEffects env id n c cb ts cbOk) =
      setStatus (upsertShipment (setStatus db id .processing) id d) id .completed := by
  unfold workerEffects
  rw [hgc]
  cases cb <;> simp [hs, applyEffects, applyEffect]

theorem worker_findReq_other {env : Env} (db : Db) (id : Nat) (n c : String)
    (cb : Option String) (ts : String) (cbOk : Bool) {i : Nat}
    (hne : (i == id) = false) :
    (applyEffects db (workerEffects env id n c cb ts cbOk)).findReq i = db.findReq i := by
  cases hgc : env.getCarrier c with
  | none =>
      rw [worker_db_failure (by unfold adapterFails; rw [hgc]) db id n cb ts cbOk]
      rw [findReq_setStatus_other _ hne, findReq_setStatus_other _ hne]
  | some oc =>
      cases oc with
      | throws m =>
          rw [worker_db_failure (by unfold adapterFails; rw [hgc]) db id n cb ts cbOk]
          rw [findReq_setStatus_other _ hne, findReq_setStatus_other _ hne]
      | returns d =>
          cases hs : d.success with
          | false =>
              rw [worker_db_failure (by unfold adapterFails; rw [hgc]; simp [hs]) db id n cb ts cbOk]
              rw [findReq_setStatus_other _ hne, findReq_setStatus_other _ hne]
          | true =>
              rw [worker_db_success hgc hs db id n cb ts cbOk]
              rw [findReq_setStatus_other _ hne]
              unfold Db.findReq
              rw [upsertShipment_requests]
              exact findReq_setStatus_other _ hne

theorem worker_final_failure {env : Env} {c : String} (hfail : adapterFails env c = true)
    {db : Db} {id : Nat} {r : TrackingRecord} (h : db.findReq id = some r)
    (n : String) (cb : Option String) (ts : String) (cbOk : Bool) :
    (applyEffects db (workerEffects env id n c cb ts cbOk)).findReq id =
        some { r with status := .failed } ∧
      (applyEffects db (workerEffects env id n c cb ts cbOk)).findShipment id =
        db.findShipment id := by
  rw [worker_db_failure hfail db id n cb ts cbOk]
  constructor
  · have h1 := @findReq_setStatus_self db _ _ Status.processing h
    have h2 := @findReq_setStatus_self (setStatus db id .processing) _ _ Status.failed h1
    exact h2
  · rfl

theorem lookupAssoc_eq_none {α : Type} {l : List (Nat × α)} {i : Nat}
    (h : ∀ p ∈ l, p.1 ≠ i) : lookupAssoc l i = none := by
  induction l with
  | nil => rfl
  | cons a tail ih =>
      have ha : a.1 ≠ i := h a (List.mem_cons_self a tail)
      have hk : (a.1 == i) = false := by simpa using ha
      simp only [lookupAssoc, hk, Bool.false_eq_true, if_false]
      exact ih (fun p hp => h p (List.mem_cons_of_mem a hp))

theorem findReq_createReq_self {db : Db} (hf : FreshIds db) (r : TrackingRecord) :
    (createReq db r).findReq db.nextId = some r := by
  unfold createReq Db.findReq
  rw [lookupAssoc_append]
  have hnone : lookupAssoc db.requests db.nextId = none :=
    lookupAssoc_eq_none (fun p hp => Nat.ne_of_lt (hf p hp))
  rw [hnone]
  simp [lookupAssoc]

theorem findReq_createReq_other {db : Db} (r : TrackingRecord) {i : Nat}
    (hne : i ≠ db.nextId) : (createReq db r).findReq i = db.findReq i := by
  unfold createReq Db.findReq
  rw [lookupAssoc_append]
  have hk : (db.nextId == i) = false := by
    simp only [beq_eq_false_iff_ne, ne_eq]
    omega
  cases hl : lookupAssoc db.requests i with
  | some v => rfl
  | none => simp [lookupAssoc, hk]

theorem isUpper_toNat_bounds (c : Char) (h : c.isUpper = true) :
    65 ≤ c.toNat ∧ c.toNat ≤ 90 := by
  unfold Char.isUpper at h
  simp only [Bool.and_eq_true, decide_eq_true_eq] at h
  obtain ⟨h1, h2⟩ := h
  exact ⟨h1, h2⟩

theorem isLower_toNat_bounds (c : Char) (h : c.isLower = true) :
    97 ≤ c.toNat ∧ c.toNat ≤ 122 := by
  unfold Char.isLower at h
  simp only [Bool.and_eq_true, decide_eq_true_eq] at h
  obtain ⟨h1, h2⟩ := h
  exact ⟨h1, h2⟩

theorem asciiUpper_asciiLower (c : Char) :
    asciiUpper (asciiLower c) = asciiUpper c := by
  by_cases h : c.isUpper = true
  · obtain ⟨ha, hb⟩ := isUpper_toNat_bounds c h
    have hc := (Char.ofNat_toNat c).symm
    generalize hg : c.toNat = n at ha hb hc
    subst hc
    interval_cases n <;> decide
  · have he : asciiLower c = c := by
      unfold asciiLower
      rw [if_neg h]
    rw [he]

theorem asciiUpper_asciiUpper (c : Char) :
    asciiUpper (asciiUpper c) = asciiUpper c := by
  by_cases h : c.isLower = true
  · obtain ⟨ha, hb⟩ := isLower_toNat_bounds c h
    have hc := (Char.ofNat_toNat c).symm
    generalize hg : c.toNat = n at ha hb hc
    subst hc
    interval_cases n <;> decide
  · have he : asciiUpper c = c := by
      unfold asciiUpper
      rw [if_neg h]
    rw [he, he]

theorem upperName_upperName (s : String) : upperName (upperName s) = upperName s := by
  unfold upperName
  congr 1
  show (s.data.map asciiUpper).map asciiUpper = s.data.map asciiUpper
  rw [List.map_map]
  exact List.map_congr_left (fun a _ => asciiUpper_asciiUpper a)

theorem upperName_lowerName (s : String) : upperName (lowerName s) = upperName s := by
  unfold upperName lowerName
  congr 1
  show (s.data.map asciiLower).map asciiUpper = s.data.map asciiUpper
  rw [List.map_map]
  exact List.map_congr_left (fun a _ => asciiUpper_asciiLower a)

theorem getCarrier_eq (env : Env) (name : String) :
    env.getCarrier name =
      if env.uspsConfigured &&
          ("USPS" == upperName name || "usps" == upperName name ||
           "USPS" == lowerName name || "usps" == lowerName name) then
        some env.uspsOutcome
      else none := by
  unfold Env.getCarrier Env.carriers
  cases hn : (name == "") with
  | true =>
      have he : name = "" := by simpa using hn
      subst he
      cases env.uspsConfigured <;> rfl
  | false =>
      cases hcfg : env.uspsConfigured with
      | false => simp [Option.orElse]
      | true =>
          cases h1 : ("USPS" == upperName name) <;>
          cases h2 : ("usps" == upperName name) <;>
          cases h3 : ("USPS" == lowerName name) <;>
          cases h4 : ("usps" == lowerName name) <;>
            simp [List.find?, h1, h2, h3, h4, Option.orElse]

theorem avail_upperName_usps {env : Env} {c : String}
    (hc : env.isCarrierAvailable c = true) : upperName c = "USPS" := by
  unfold Env.isCarrierAvailable at hc
  rw [getCarrier_eq] at hc
  cases h1 : ("USPS" == upperName c) with
  | true => exact (eq_of_beq h1).symm
  | false =>
      cases h2 : ("usps" == upperName c) with
      | true =>
          have he : upperName c = "usps" := (eq_of_beq h2).symm
          calc upperName c = upperName (upperName c) := (upperName_upperName c).symm
            _ = "USPS" := by rw [he]; decide
      | false =>
          cases h3 : ("USPS" == lowerName c) with
          | true =>
              have he : lowerName c = "USPS" := (eq_of_beq h3).symm
              calc upperName c = upperName (lowerName c) :=
                    (upperName_lowerName c).symm
                _ = "USPS" := by rw [he]; decide
          | false =>
              cases h4 : ("usps" == lowerName c) with
              | true =>
                  have he : lowerName c = "usps" := (eq_of_beq h4).symm
                  calc upperName c = upperName (lowerName c) :=
                        (upperName_lowerName c).symm
                    _ = "USPS" := by rw [he]; decide
              | false =>
                  exfalso
                  rw [h1, h2, h3, h4] at hc
                  simp at hc

theorem envResolves_of_usps (env : Env) (tbl : CarrierTable)
    (husps : (getCarrierId tbl "USPS").isSome = true) : EnvResolves env tbl := by
  intro c hc
  have hup := avail_upperName_usps hc
  unfold getCarrierId at husps ⊢
  rw [hup]
  have he : upperName "USPS" = "USPS" := rfl
  rw [he] at husps
  exact husps

theorem isCarrierAvailable_congr {e1 e2 : Env}
    (hc : e1.uspsConfigured = e2.uspsConfigured)
    (ha : e1.uspsActive = e2.uspsActive) :
    e1.isCarrierAvailable = e2.isCarrierAvailable := by
  funext name
  have hgc : (e1.getCarrier name).isSome = (e2.getCarrier name).isSome := by
    rw [getCarrier_eq, getCarrier_eq, hc]
    cases hcond : (e2.uspsConfigured &&
        ("USPS" == upperName name || "usps" == upperName name ||
         "USPS" == lowerName name || "usps" == lowerName name)) <;> rfl
  unfold Env.isCarrierAvailable
  rw [ha]
  cases hg1 : e1.getCarrier name with
  | some o1 =>
      rw [hg1] at hgc
      cases hg2 : e2.getCarrier name with
      | some o2 => rfl
      | none => rw [hg2] at hgc; simp at hgc
  | none =>
      rw [hg1] at hgc
      cases hg2 : e2.getCarrier name with
      | some o2 => rw [hg2] at hgc; simp at hgc
      | none => rfl

/-- C7: the classifier tests its patterns in the fixed table order
UPS, FedEx, USPS, DHL, Amazon and returns the first matching carrier:
`1Z12345678901234AB` is classified UPS, the 12-digit `123456789012`
matches both the UPS 10-or-more-digit fallback and the FedEx 12-digit
pattern and resolves to UPS by precedence, `TBA1234567890` is
classified Amazon, and `notanumber` matches nothing. -/
theorem C7_classifier_precedence :
    detectCarrierFromTrackingNumber "1Z12345678901234AB" = some "UPS" ∧
    detectCarrierFromTrackingNumber "123456789012" = some "UPS" ∧
    matchesUPS ("123456789012".toList) = true ∧
    matchesFedEx ("123456789012".toList) = true ∧
    detectCarrierFromTrackingNumber "TBA1234567890" = some "Amazon" ∧
    detectCarrierFromTrackingNumber "notanumber" = none := by
  decide

/-- C1 (counterexample): the carrier classifier does not return
Unknown on `"9400111206213859496247"`; the 22-digit string matches the
UPS 10-or-more-digit fallback pattern and is classified UPS. -/
theorem C1_counterexample :
    detectCarrierFromTrackingNumber "9400111206213859496247" = some "UPS" ∧
    upsDigits ("9400111206213859496247".toList) = true := by
  decide

/-- C1 (amended): the classifier resolves `"9400111206213859496247"`
to UPS (not Unknown); an external submission of that tracking number
with the carrier omitted still creates the request in
`awaiting_carrier`, because `POST /api/external/track` never invokes
the classifier for an omitted carrier. -/
theorem C1_amended :
    detectCarrierFromTrackingNumber "9400111206213859496247" = some "UPS" ∧
    ∀ (env : Env) (tbl : CarrierTable) (u : String) (cbUrl : Option String) (s : Sys),
      FreshIds s.db →
      findDuplicate s.db u "9400111206213859496247" none = none →
      (applyOp env tbl s (.submitExternal u "9400111206213859496247" none cbUrl)).2 =
          .created s.db.nextId .awaitingCarrier ∧
        (applyOp env tbl s
            (.submitExternal u "9400111206213859496247" none cbUrl)).1.db.findReq s.db.nextId =
          some { userId := u, trackingNumber := "9400111206213859496247",
                 carrierId := none, status := .awaitingCarrier, callbackUrl := cbUrl } := by
  refine ⟨by decide, ?_⟩
  intro env tbl u cbUrl s hfresh hdup
  have hv : validLen "9400111206213859496247" = true := by decide
  constructor
  · simp [applyOp, doSubmitExternal, hv, hdup]
  · simp only [applyOp, doSubmitExternal, hv, hdup, Bool.and_true, Bool.not_true,
      Bool.false_eq_true, if_false]
    exact findReq_createReq_self hfresh _

/-- C1 (witness): the amended statement instantiated on the empty
deployment. -/
theorem C1_witness :
    (applyOp env0 tbl0 initSys
        (.submitExternal "u1" "9400111206213859496247" none none)).2 =
        .created 0 .awaitingCarrier ∧
      (applyOp env0 tbl0 initSys
          (.submitExternal "u1" "9400111206213859496247" none none)).1.db.findReq 0 =
        some { userId := "u1", trackingNumber := "9400111206213859496247",
               carrierId := none, status := .awaitingCarrier, callbackUrl := none } :=
  C1_amended.2 env0 tbl0 "u1" none initSys
    (by intro p hp; simp [initSys] at hp) (by decide)

/-- C2 (counterexample): the worker invoked on a request already in
the terminal `completed` state does not abort: its first write moves
the request to `processing` and it still reaches the carrier
adapter. -/
theorem C2_counterexample :
    dbCompleted.findReq 0 =
        some { userId := "u1", trackingNumber := "9405511899223197428490",
               carrierId := some "car-1", status := .completed, callbackUrl := none } ∧
      (applyEffects dbCompleted
          ((workerEffects env0 0 "9405511899223197428490" "USPS" none
              "2026-10-12T00:00:00.000Z" true).take 1)).findReq 0 =
        some { userId := "u1", trackingNumber := "9405511899223197428490",
               carrierId := some "car-1", status := .processing, callbackUrl := none } ∧
      Effect.adapterCall "9405511899223197428490" ∈
        workerEffects env0 0 "9405511899223197428490" "USPS" none
          "2026-10-12T00:00:00.000Z" true := by
  decide

/-- C2 (amended): the worker's first step unconditionally writes
`status = 'processing'` — a plain update, not a compare-and-swap
against `pending` — so invoked on a request in any state it proceeds,
and in particular it still calls the carrier adapter whenever the
factory resolves one. -/
theorem C2_amended :
    ∀ (env : Env) (id : Nat) (n c : String) (cb : Option String) (ts : String)
      (cbOk : Bool) (db : Db) (r : TrackingRecord),
      db.findReq id = some r →
      (workerEffects env id n c cb ts cbOk).head? =
          some (.statusWrite id .processing) ∧
        (applyEffects db ((workerEffects env id n c cb ts cbOk).take 1)).findReq id =
          some { r with status := .processing } ∧
        (∀ oc, env.getCarrier c = some oc →
          Effect.adapterCall n ∈ workerEffects env id n c cb ts cbOk) := by
  intro env id n c cb ts cbOk db r h
  refine ⟨rfl, ?_, ?_⟩
  · show (applyEffects db [Effect.statusWrite id .processing]).findReq id = _
    exact findReq_setStatus_self Status.processing h
  · intro oc hgc
    cases oc with
    | throws m => simp [workerEffects, hgc]
    | returns d => simp [workerEffects, hgc]

/-- C2 (witness): the amended statement instantiated on a completed
request with the USPS-only registry. -/
theorem C2_witness :
    (workerEffects env0 0 "9405511899223197428490" "USPS" none
          "2026-10-12T00:00:00.000Z" true).head? =
        some (.statusWrite 0 .processing) ∧
      (applyEffects dbCompleted
          ((workerEffects env0 0 "9405511899223197428490" "USPS" none
              "2026-10-12T00:00:00.000Z" true).take 1)).findReq 0 =
        some { userId := "u1", trackingNumber := "9405511899223197428490",
               carrierId := some "car-1", status := .processing, callbackUrl := none } ∧
      (∀ oc, env0.getCarrier "USPS" = some oc →
        Effect.adapterCall "9405511899223197428490" ∈
          workerEffects env0 0 "9405511899223197428490" "USPS" none
            "2026-10-12T00:00:00.000Z" true) :=
  C2_amended env0 0 "9405511899223197428490" "USPS" none "2026-10-12T00:00:00.000Z"
    true dbCompleted
    { userId := "u1", trackingNumber := "9405511899223197428490",
      carrierId := some "car-1", status := .completed, callbackUrl := none }
    (by decide)

theorem workerEffects_none {env : Env} {c : String} (hgc : env.getCarrier c = none)
    (id : Nat) (n : String) (cb : Option String) (ts : String) (cbOk : Bool) :
    workerEffects env id n c cb ts cbOk =
      Effect.statusWrite id .processing ::
        failTail id n c cb ts ("Carrier " ++ c ++ " not found") cbOk := by
  unfold workerEffects
  rw [hgc]

theorem workerEffects_throws {env : Env} {c m : String}
    (hgc : env.getCarrier c = some (.throws m))
    (id : Nat) (n : String) (cb : Option String) (ts : String) (cbOk : Bool) :
    workerEffects env id n c cb ts cbOk =
      Effect.statusWrite id .processing :: Effect.adapterCall n ::
        failTail id n c cb ts m cbOk := by
  unfold workerEffects
  rw [hgc]

theorem workerEffects_failResult {env : Env} {c : String} {d : TrackData}
    (hgc : env.getCarrier c = some (.returns d)) (hs : d.success = false)
    (id : Nat) (n : String) (cb : Option String) (ts : String) (cbOk : Bool) :
    workerEffects env id n c cb ts cbOk =
      Effect.statusWrite id .processing :: Effect.adapterCall n ::
        failTail id n c cb ts d.error cbOk := by
  unfold workerEffects
  rw [hgc]
  simp [hs]

/-- C8: every adapter failure (unresolved adapter, rejected
`trackPackage` promise, or a `success: false` result) is contained at
the worker boundary: the request moves to the terminal `failed` state,
no shipment row is written for it (no partial result), and the
intake endpoints' behaviour is entirely independent of the adapter
outcome, so the failure is never propagated to the caller of a submit
endpoint. -/
theorem C8_failure_contained :
    (∀ (env : Env) (c : String), adapterFails env c = true →
      ∀ (id : Nat) (n : String) (cb : Option String) (ts : String) (cbOk : Bool)
        (db : Db) (r : TrackingRecord),
        db.findReq id = some r → db.findShipment id = none →
        (applyEffects db (workerEffects env id n c cb ts cbOk)).findReq id =
            some { r with status := Status.failed } ∧
          (applyEffects db (workerEffects env id n c cb ts cbOk)).findShipment id =
            none ∧
          ∀ d2, Effect.shipmentUpsert id d2 ∉ workerEffects env id n c cb ts cbOk) ∧
    (∀ (env1 env2 : Env) (tbl : CarrierTable) (s : Sys) (u n c : String)
      (brand cx cbUrl : Option String),
      env1.isCarrierAvailable = env2.isCarrierAvailable →
      applyOp env1 tbl s (.submitTrack u n c) = applyOp env2 tbl s (.submitTrack u n c) ∧
      applyOp env1 tbl s (.submitAdd u n brand) =
          applyOp env2 tbl s (.submitAdd u n brand) ∧
      applyOp env1 tbl s (.submitExternal u n cx cbUrl) =
        applyOp env2 tbl s (.submitExternal u n cx cbUrl)) := by
  constructor
  · intro env c hfail id n cb ts cbOk db r h hship
    obtain ⟨h1, h2⟩ := worker_final_failure hfail h n cb ts cbOk
    refine ⟨h1, by rw [h2, hship], ?_⟩
    intro d2
    cases hgc : env.getCarrier c with
    | none =>
        rw [workerEffects_none hgc]
        cases cb <;> simp [failTail]
    | some oc =>
        cases oc with
        | throws m =>
            rw [workerEffects_throws hgc]
            cases cb <;> simp [failTail]
        | returns d =>
            have hs : d.success = false := by
              unfold adapterFails at hfail
              rw [hgc] at hfail
              simpa using hfail
            rw [workerEffects_failResult hgc hs]
            cases cb <;> simp [failTail]
  · intro env1 env2 tbl s u n c brand cx cbUrl h
    refine ⟨?_, ?_, ?_⟩
    · show doSubmitTrack env1 tbl s u n c = doSubmitTrack env2 tbl s u n c
      unfold doSubmitTrack
      rw [h]
    · show doSubmitAdd env1 tbl s u n brand = doSubmitAdd env2 tbl s u n brand
      unfold doSubmitAdd
      rw [h]
    · show doSubmitExternal env1 tbl s u n cx cbUrl =
        doSubmitExternal env2 tbl s u n cx cbUrl
      unfold doSubmitExternal
      rw [h]

/-- C8 (witness): the containment statement instantiated on a pending
request with the failing USPS adapter, plus the submit-independence
statement instantiated between the succeeding and failing
registries. -/
theorem C8_witness :
    ((applyEffects dbPending
          (workerEffects envFail 7 "9405511899223197428490" "USPS" none
            "2026-10-12T00:00:00.000Z" true)).findReq 7 =
        some { userId := "u1", trackingNumber := "9405511899223197428490",
               carrierId := some "car-1", status := Status.failed,
               callbackUrl := some "https://app.example/cb" } ∧
      (applyEffects dbPending
          (workerEffects envFail 7 "9405511899223197428490" "USPS" none
            "2026-10-12T00:00:00.000Z" true)).findShipment 7 = none ∧
      ∀ d2, Effect.shipmentUpsert 7 d2 ∉
        workerEffects envFail 7 "9405511899223197428490" "USPS" none
          "2026-10-12T00:00:00.000Z" true) ∧
    applyOp env0 tbl0 initSys (.submitTrack "u1" "9405511899223197428490" "USPS") =
      applyOp envFail tbl0 initSys (.submitTrack "u1" "9405511899223197428490" "USPS") := by
  constructor
  · exact (C8_failure_contained.1 envFail "USPS" (by decide) 7
      "9405511899223197428490" none "2026-10-12T00:00:00.000Z" true dbPending
      { userId := "u1", trackingNumber := "9405511899223197428490",
        carrierId := some "car-1", status := Status.pending,
        callbackUrl := some "https://app.example/cb" } (by decide) (by decide))
  · exact (C8_failure_contained.2 env0 envFail tbl0 initSys "u1"
      "9405511899223197428490" "USPS" none none none
      (isCarrierAvailable_congr rfl rfl)).1

/-- C9: the worker persists the terminal status strictly before any
webhook attempt, and the final persisted store is the same whether the
webhook endpoint is reachable or not — callback failures are
swallowed and never alter the terminal state. -/
theorem C9_callback_isolation :
    ∀ (env : Env) (id : Nat) (n c : String) (cb : Option String) (ts : String)
      (cbOk : Bool) (db : Db),
      applyEffects db (workerEffects env id n c cb ts true) =
          applyEffects db (workerEffects env id n c cb ts false) ∧
        callbackAfterTerminal id (workerEffects env id n c cb ts cbOk) = true := by
  intro env id n c cb ts cbOk db
  constructor
  · cases hgc : env.getCarrier c with
    | none =>
        have hfail : adapterFails env c = true := by unfold adapterFails; rw [hgc]
        rw [worker_db_failure hfail, worker_db_failure hfail]
    | some oc =>
        cases oc with
        | throws m =>
            have hfail : adapterFails env c = true := by unfold adapterFails; rw [hgc]
            rw [worker_db_failure hfail, worker_db_failure hfail]
        | returns d =>
            cases hs : d.success with
            | false =>
                have hfail : adapterFails env c = true := by
                  unfold adapterFails; rw [hgc]; simp [hs]
                rw [worker_db_failure hfail, worker_db_failure hfail]
            | true =>
                rw [worker_db_success hgc hs, worker_db_success hgc hs]
  · unfold workerEffects failTail
    cases hgc : env.getCarrier c with
    | none =>
        cases cb <;>
          simp [callbackAfterTerminal, callbackAfterTerminalGo, Status.isTerminal]
    | some oc =>
        cases oc with
        | throws m =>
            cases cb <;>
              simp [callbackAfterTerminal, callbackAfterTerminalGo, Status.isTerminal]
        | returns d =>
            cases hs : d.success with
            | false =>
                cases cb <;>
                  simp [hs, callbackAfterTerminal, callbackAfterTerminalGo,
                    Status.isTerminal]
            | true =>
                cases cb <;>
                  simp [hs, callbackAfterTerminal, callbackAfterTerminalGo,
                    Status.isTerminal]

theorem mem_updAssoc {α : Type} {l : List (Nat × α)} {id : Nat} {g : α → α}
    {p : Nat × α} (hp : p ∈ updAssoc l id g) :
    p ∈ l ∨ ∃ q, q ∈ l ∧ q.1 = id ∧ p = (q.1, g q.2) := by
  induction l with
  | nil => simp [updAssoc] at hp
  | cons a tail ih =>
      by_cases hk : (a.1 == id) = true
      · simp only [updAssoc, hk, if_true] at hp
        rcases List.mem_cons.mp hp with h | h
        · exact Or.inr ⟨a, List.mem_cons_self a tail, by simpa using hk, h⟩
        · rcases ih h with h2 | ⟨q, hq, hq1, hq2⟩
          · exact Or.inl (List.mem_cons_of_mem a h2)
          · exact Or.inr ⟨q, List.mem_cons_of_mem a hq, hq1, hq2⟩
      · simp only [updAssoc, hk, Bool.false_eq_true, if_false] at hp
        rcases List.mem_cons.mp hp with h | h
        · exact Or.inl (h ▸ List.mem_cons_self a tail)
        · rcases ih h with h2 | ⟨q, hq, hq1, hq2⟩
          · exact Or.inl (List.mem_cons_of_mem a h2)
          · exact Or.inr ⟨q, List.mem_cons_of_mem a hq, hq1, hq2⟩

theorem lookupAssoc_filter_ne {α : Type} {l : List (Nat × α)} {tid i : Nat}
    (hne : (i == tid) = false) :
    lookupAssoc (l.filter (fun p => !(p.1 == tid))) i = lookupAssoc l i := by
  induction l with
  | nil => rfl
  | cons a tail ih =>
      by_cases hk : (a.1 == tid) = true
      · have hai : (a.1 == i) = false := by
          have h1 : a.1 = tid := by simpa using hk
          have h2 : i ≠ tid := by simpa using hne
          simp [h1]
          omega
        simp only [List.filter_cons, hk, Bool.not_true, Bool.false_eq_true, if_false]
        rw [ih]
        simp [lookupAssoc, hai]
      · simp only [List.filter_cons, hk, Bool.not_false, Bool.false_eq_true, if_true]
        by_cases hai : (a.1 == i) = true
        · simp [lookupAssoc, hai]
        · simp only [lookupAssoc, hai, Bool.false_eq_true, if_false]
          exact ih

theorem lookupAssoc_of_mem_nodup {α : Type} {l : List (Nat × α)}
    (hnd : (l.map Prod.fst).Nodup) {i : Nat} {v : α} (hm : (i, v) ∈ l) :
    lookupAssoc l i = some v := by
  induction l with
  | nil => simp at hm
  | cons a tail ih =>
      rcases List.mem_cons.mp hm with h | h
      · rw [← h]
        simp [lookupAssoc]
      · have hnd2 : a.1 ∉ tail.map Prod.fst ∧ (tail.map Prod.fst).Nodup := by
          rw [List.map_cons] at hnd
          exact List.nodup_cons.mp hnd
        have hi : i ∈ tail.map Prod.fst := by
          have := List.mem_map_of_mem Prod.fst h
          simpa using this
        have hne : (a.1 == i) = false := by
          have : a.1 ≠ i := fun he => hnd2.1 (he ▸ hi)
          simpa using this
        simp only [lookupAssoc, hne, Bool.false_eq_true, if_false]
        exact ih hnd2.2 h

theorem mem_of_lookupAssoc {α : Type} {l : List (Nat × α)} {i : Nat} {v : α}
    (h : lookupAssoc l i = some v) : (i, v) ∈ l := by
  induction l with
  | nil => simp [lookupAssoc] at h
  | cons a tail ih =>
      by_cases hk : (a.1 == i) = true
      · simp only [lookupAssoc, hk, if_true] at h
        have h1 : a.1 = i := by simpa using hk
        have h2 : a.2 = v := Option.some.inj h
        have : a = (i, v) := by
          cases a
          simp_all
        exact this ▸ List.mem_cons_self a tail
      · simp only [lookupAssoc, hk, Bool.false_eq_true, if_false] at h
        exact List.mem_cons_of_mem a (ih h)

theorem findOwned_spec {db : Db} {u : String} {tid : Nat} {r : TrackingRecord}
    (h : findOwned db u tid = some r) :
    (tid, r) ∈ db.requests ∧ r.userId = u := by
  unfold findOwned at h
  cases hf : db.requests.find? (fun p => p.1 == tid && p.2.userId == u) with
  | none => rw [hf] at h; simp at h
  | some q =>
      rw [hf] at h
      simp only [Option.map_some'] at h
      have hr : q.2 = r := Option.some.inj h
      have hpred := List.find?_some hf
      have hmem := List.mem_of_find?_eq_some hf
      simp only [Bool.and_eq_true, beq_iff_eq] at hpred
      obtain ⟨h1, h2⟩ := hpred
      have hq : q = (tid, r) := by
        obtain ⟨qa, qb⟩ := q
        simp only at h1 hr
        rw [h1, hr]
      refine ⟨hq ▸ hmem, ?_⟩
      rw [← hr]
      exact h2

theorem findOwned_none {db : Db} {u : String} {tid : Nat}
    (h : findOwned db u tid = none) :
    ∀ v, (tid, v) ∈ db.requests → v.userId ≠ u := by
  intro v hv he
  unfold findOwned at h
  cases hf : db.requests.find? (fun p => p.1 == tid && p.2.userId == u) with
  | some q => rw [hf] at h; simp at h
  | none =>
      have := List.find?_eq_none.mp hf (tid, v) hv
      simp [he] at this

theorem worker_requests_shape (env : Env) (db : Db) (id : Nat) (n c : String)
    (cb : Option String) (ts : String) (cbOk : Bool) :
    ∃ fin : Status, fin.isTerminal = true ∧
      (applyEffects db (workerEffects env id n c cb ts cbOk)).requests =
        updAssoc (updAssoc db.requests id (fun v => { v with status := .processing }))
          id (fun v => { v with status := fin }) ∧
      (applyEffects db (workerEffects env id n c cb ts cbOk)).nextId = db.nextId := by
  cases hgc : env.getCarrier c with
  | none =>
      have hfail : adapterFails env c = true := by unfold adapterFails; rw [hgc]
      refine ⟨.failed, rfl, ?_, ?_⟩
      · rw [worker_db_failure hfail]
        rfl
      · rw [worker_db_failure hfail]
        rfl
  | some oc =>
      cases oc with
      | throws m =>
          have hfail : adapterFails env c = true := by unfold adapterFails; rw [hgc]
          refine ⟨.failed, rfl, ?_, ?_⟩
          · rw [worker_db_failure hfail]
            rfl
          · rw [worker_db_failure hfail]
            rfl
      | returns d =>
          cases hs : d.success with
          | false =>
              have hfail : adapterFails env c = true := by
                unfold adapterFails; rw [hgc]; simp [hs]
              refine ⟨.failed, rfl, ?_, ?_⟩
              · rw [worker_db_failure hfail]
                rfl
              · rw [worker_db_failure hfail]
                rfl
          | true =>
              refine ⟨.completed, rfl, ?_, ?_⟩
              · rw [worker_db_success hgc hs]
                show updAssoc (upsertShipment (setStatus db id .processing) id
                    d).requests id _ = _
                rw [upsertShipment_requests]
                rfl
              · rw [worker_db_success hgc hs]
                show (upsertShipment (setStatus db id .processing) id d).nextId = _
                rw [upsertShipment_nextId]
                rfl

theorem sysInv_create_task {s : Sys} (hinv : SysInv s) (r : TrackingRecord)
    (hst : r.status = .pending) (hcar : r.carrierId.isSome = true)
    (tn cn : String) (cbv : Option String) :
    SysInv { db := createReq s.db r,
             tasks := s.tasks ++ [{ reqId := s.db.nextId, trackingNumber := tn,
                                    carrierName := cn, cb := cbv }] } := by
  obtain ⟨hF, hK, hTF, hTD, hTP, hC⟩ := hinv
  refine ⟨?_, ?_, ?_, ?_, ?_, ?_⟩
  · intro p hp
    show p.1 < s.db.nextId + 1
    rcases List.mem_append.mp hp with h | h
    · exact Nat.lt_succ_of_lt (hF p h)
    · rw [List.mem_singleton] at h
      rw [h]
      exact Nat.lt_succ_self _
  · show ((s.db.requests ++ [(s.db.nextId, r)]).map Prod.fst).Nodup
    rw [List.map_append]
    refine List.Nodup.append hK (by simp) ?_
    intro a ha hb
    simp only [List.map_cons, List.map_nil, List.mem_singleton] at hb
    subst hb
    obtain ⟨p, hp, hpe⟩ := List.mem_map.mp ha
    exact absurd (hpe ▸ hF p hp) (lt_irrefl _)
  · intro t ht
    show t.reqId < s.db.nextId + 1
    rcases List.mem_append.mp ht with h | h
    · exact Nat.lt_succ_of_lt (hTF t h)
    · rw [List.mem_singleton] at h
      rw [h]
      exact Nat.lt_succ_self _
  · show ((s.tasks ++ [_]).map WorkerTask.reqId).Nodup
    rw [List.map_append]
    refine List.Nodup.append hTD (by simp) ?_
    intro a ha hb
    simp only [List.map_cons, List.map_nil, List.mem_singleton] at hb
    subst hb
    obtain ⟨t, ht, hte⟩ := List.mem_map.mp ha
    exact absurd (hte ▸ hTF t ht) (lt_irrefl _)
  · intro t ht r' hfr
    rcases List.mem_append.mp ht with h | h
    · have hne : t.reqId ≠ s.db.nextId := Nat.ne_of_lt (hTF t h)
      rw [findReq_createReq_other r hne] at hfr
      exact hTP t h r' hfr
    · rw [List.mem_singleton] at h
      subst h
      rw [findReq_createReq_self hF r] at hfr
      rw [← Option.some.inj hfr]
      exact ⟨hst, hcar⟩
  · intro p hp hne
    rcases List.mem_append.mp hp with h | h
    · exact hC p h hne
    · rw [List.mem_singleton] at h
      subst h
      exact hcar

theorem sysInv_create_notask {s : Sys} (hinv : SysInv s) (r : TrackingRecord)
    (hr : r.status ≠ .awaitingCarrier → r.carrierId.isSome = true) :
    SysInv { db := createReq s.db r, tasks := s.tasks } := by
  obtain ⟨hF, hK, hTF, hTD, hTP, hC⟩ := hinv
  refine ⟨?_, ?_, ?_, ?_, ?_, ?_⟩
  · intro p hp
    show p.1 < s.db.nextId + 1
    rcases List.mem_append.mp hp with h | h
    · exact Nat.lt_succ_of_lt (hF p h)
    · rw [List.mem_singleton] at h
      rw [h]
      exact Nat.lt_succ_self _
  · show ((s.db.requests ++ [(s.db.nextId, r)]).map Prod.fst).Nodup
    rw [List.map_append]
    refine List.Nodup.append hK (by simp) ?_
    intro a ha hb
    simp only [List.map_cons, List.map_nil, List.mem_singleton] at hb
    subst hb
    obtain ⟨p, hp, hpe⟩ := List.mem_map.mp ha
    exact absurd (hpe ▸ hF p hp) (lt_irrefl _)
  · intro t ht
    exact Nat.lt_succ_of_lt (hTF t ht)
  · exact hTD
  · intro t ht r' hfr
    have hne : t.reqId ≠ s.db.nextId := Nat.ne_of_lt (hTF t ht)
    rw [findReq_createReq_other r hne] at hfr
    exact hTP t ht r' hfr
  · intro p hp hne
    rcases List.mem_append.mp hp with h | h
    · exact hC p h hne
    · rw [List.mem_singleton] at h
      subst h
      exact hr hne

theorem sysInv_assign_upd {s : Sys} (hinv : SysInv s) {u : String} {tid : Nat}
    {r : TrackingRecord} (hro : findOwned s.db u tid = some r)
    (hnone : r.carrierId.isSome = false) (cidv : String) (t : WorkerTask)
    (htid : t.reqId = tid) :
    SysInv { db := { s.db with requests := (updAssoc s.db.requests tid
               (fun v => { v with
                  carrierId := (some cidv).orElse (fun _ => v.carrierId),
                  status := Status.pending })) },
             tasks := s.tasks ++ [t] } := by
  obtain ⟨hF, hK, hTF, hTD, hTP, hC⟩ := hinv
  obtain ⟨hmem, -⟩ := findOwned_spec hro
  have hfr : s.db.findReq tid = some r := lookupAssoc_of_mem_nodup hK hmem
  have hkey : tid < s.db.nextId := hF (tid, r) hmem
  have hnotask : ∀ t2 ∈ s.tasks, t2.reqId ≠ tid := by
    intro t2 ht2 he
    have := hTP t2 ht2 r (by rw [he]; exact hfr)
    rw [this.2] at hnone
    exact absurd hnone (by simp)
  refine ⟨?_, ?_, ?_, ?_, ?_, ?_⟩
  · intro p hp
    rcases mem_updAssoc hp with h | ⟨q, hq, hq1, hq2⟩
    · exact hF p h
    · show p.1 < s.db.nextId
      rw [hq2]
      exact hF q hq
  · show ((updAssoc s.db.requests tid _).map Prod.fst).Nodup
    rw [updAssoc_keys]
    exact hK
  · intro t2 ht2
    rcases List.mem_append.mp ht2 with h | h
    · exact hTF t2 h
    · rw [List.mem_singleton] at h
      subst h
      show t2.reqId < s.db.nextId
      rw [htid]
      exact hkey
  · show ((s.tasks ++ [t]).map WorkerTask.reqId).Nodup
    rw [List.map_append]
    refine List.Nodup.append hTD (by simp) ?_
    intro a ha hb
    simp only [List.map_cons, List.map_nil, List.mem_singleton] at hb
    subst hb
    obtain ⟨t2, ht2, hte⟩ := List.mem_map.mp ha
    exact hnotask t2 ht2 (hte.trans htid)
  · intro t2 ht2 r' hfr'
    rcases List.mem_append.mp ht2 with h | h
    · have hne : (t2.reqId == tid) = false := by
        simpa using hnotask t2 h
      have heq : Db.findReq { s.db with requests := (updAssoc s.db.requests tid
          (fun v => { v with
             carrierId := (some cidv).orElse (fun _ => v.carrierId),
             status := Status.pending })) } t2.reqId = s.db.findReq t2.reqId :=
        lookupAssoc_updAssoc_other _ hne
      rw [heq] at hfr'
      exact hTP t2 h r' hfr'
    · rw [List.mem_singleton] at h
      subst h
      rw [htid] at hfr'
      have hupd := lookupAssoc_updAssoc_self
        (fun v => { v with
           carrierId := (some cidv).orElse (fun _ => v.carrierId),
           status := Status.pending }) hfr
      have : r' = { r with carrierId := some cidv, status := Status.pending } := by
        have h2 := hfr'.symm.trans hupd
        exact Option.some.inj h2
      rw [this]
      exact ⟨rfl, rfl⟩
  · intro p hp hne
    rcases mem_updAssoc hp with h | ⟨q, hq, hq1, hq2⟩
    · exact hC p h hne
    · rw [hq2]
      rfl

theorem sysInv_update_upd {s : Sys} (hinv : SysInv s) (tid : Nat)
    (g : TrackingRecord → TrackingRecord)
    (hst : ∀ v, (g v).status = v.status)
    (hcar : ∀ v, v.carrierId.isSome = true → (g v).carrierId.isSome = true) :
    SysInv { db := { s.db with requests := updAssoc s.db.requests tid g },
             tasks := s.tasks } := by
  obtain ⟨hF, hK, hTF, hTD, hTP, hC⟩ := hinv
  refine ⟨?_, ?_, ?_, ?_, ?_, ?_⟩
  · intro p hp
    rcases mem_updAssoc hp with h | ⟨q, hq, hq1, hq2⟩
    · exact hF p h
    · show p.1 < s.db.nextId
      rw [hq2]
      exact hF q hq
  · show ((updAssoc s.db.requests tid g).map Prod.fst).Nodup
    rw [updAssoc_keys]
    exact hK
  · exact hTF
  · exact hTD
  · intro t ht r' hfr'
    by_cases he : (t.reqId == tid) = true
    · have htid : t.reqId = tid := by simpa using he
      rw [htid] at hfr'
      cases hl : s.db.findReq tid with
      | none =>
          have : updAssoc s.db.requests tid g = s.db.requests := updAssoc_absent g hl
          have hfr2 : Db.findReq { s.db with
              requests := updAssoc s.db.requests tid g } tid = none := by
            show lookupAssoc (updAssoc s.db.requests tid g) tid = none
            rw [this]
            exact hl
          rw [hfr2] at hfr'
          exact absurd hfr' (by simp)
      | some v =>
          have hupd := lookupAssoc_updAssoc_self g hl
          have hv : r' = g v := by
            have h2 := hfr'.symm.trans hupd
            exact Option.some.inj h2
          have hold := hTP t ht v (by rw [htid]; exact hl)
          rw [hv, hst v]
          exact ⟨hold.1, hcar v hold.2⟩
    · have hne : (t.reqId == tid) = false := by simpa using he
      have : Db.findReq { s.db with requests := updAssoc s.db.requests tid g }
          t.reqId = s.db.findReq t.reqId := lookupAssoc_updAssoc_other g hne
      rw [this] at hfr'
      exact hTP t ht r' hfr'
  · intro p hp hne
    rcases mem_updAssoc hp with h | ⟨q, hq, hq1, hq2⟩
    · exact hC p h hne
    · have hne2 : q.2.status ≠ Status.awaitingCarrier := by
        intro he
        apply hne
        rw [hq2]
        show (g q.2).status = _
        rw [hst q.2, he]
      have := hC q hq hne2
      rw [hq2]
      exact hcar q.2 this

theorem sysInv_delete_upd {s : Sys} (hinv : SysInv s) (tid : Nat) :
    SysInv { db := { s.db with
               requests := s.db.requests.filter (fun p => !(p.1 == tid)),
               shipments := s.db.shipments.filter (fun p => !(p.1 == tid)) },
             tasks := s.tasks } := by
  obtain ⟨hF, hK, hTF, hTD, hTP, hC⟩ := hinv
  refine ⟨?_, ?_, ?_, ?_, ?_, ?_⟩
  · intro p hp
    exact hF p (List.mem_of_mem_filter hp)
  · show ((s.db.requests.filter _).map Prod.fst).Nodup
    exact hK.sublist (List.Sublist.map Prod.fst (List.filter_sublist s.db.requests))
  · exact hTF
  · exact hTD
  · intro t ht r' hfr'
    by_cases he : (t.reqId == tid) = true
    · have htid : t.reqId = tid := by simpa using he
      have hnone : Db.findReq { s.db with
          requests := s.db.requests.filter (fun p => !(p.1 == tid)),
          shipments := s.db.shipments.filter (fun p => !(p.1 == tid)) } t.reqId =
          none := by
        show lookupAssoc (s.db.requests.filter _) t.reqId = none
        rw [htid]
        apply lookupAssoc_eq_none
        intro p hp
        have := List.of_mem_filter hp
        simpa using this
      rw [hnone] at hfr'
      exact absurd hfr' (by simp)
    · have hne : (t.reqId == tid) = false := by simpa using he
      have : Db.findReq { s.db with
          requests := s.db.requests.filter (fun p => !(p.1 == tid)),
          shipments := s.db.shipments.filter (fun p => !(p.1 == tid)) } t.reqId =
          s.db.findReq t.reqId := lookupAssoc_filter_ne hne
      rw [this] at hfr'
      exact hTP t ht r' hfr'
  · intro p hp hne
    exact hC p (List.mem_of_mem_filter hp) hne

theorem sysInv_runTask (env : Env) {s : Sys} (hinv : SysInv s) (t : WorkerTask)
    (ts : String) (cbOk : Bool) : SysInv (doRunTask env s t ts cbOk).1 := by
  unfold doRunTask
  by_cases ht : t ∈ s.tasks
  · rw [if_pos ht]
    obtain ⟨hF, hK, hTF, hTD, hTP, hC⟩ := hinv
    obtain ⟨fin, hfin, hreqs, hnext⟩ :=
      worker_requests_shape env s.db t.reqId t.trackingNumber t.carrierName t.cb ts cbOk
    have hrowcar : ∀ v : TrackingRecord, (t.reqId, v) ∈ s.db.requests →
        v.carrierId.isSome = true := by
      intro v hv
      exact (hTP t ht v (lookupAssoc_of_mem_nodup hK hv)).2
    refine ⟨?_, ?_, ?_, ?_, ?_, ?_⟩
    · intro p hp
      show p.1 < (applyEffects s.db (workerEffects env t.reqId t.trackingNumber
        t.carrierName t.cb ts cbOk)).nextId
      rw [hnext]
      rw [hreqs] at hp
      rcases mem_updAssoc hp with h | ⟨q, hq, hq1, hq2⟩
      · rcases mem_updAssoc h with h2 | ⟨q0, hq0, hq01, hq02⟩
        · exact hF p h2
        · rw [hq02]
          exact hF q0 hq0
      · rw [hq2]
        show q.1 < _
        rcases mem_updAssoc hq with h2 | ⟨q0, hq0, hq01, hq02⟩
        · exact hF q h2
        · rw [hq02]
          exact hF q0 hq0
    · show ((applyEffects s.db (workerEffects env t.reqId t.trackingNumber
        t.carrierName t.cb ts cbOk)).requests.map Prod.fst).Nodup
      rw [hreqs, updAssoc_keys, updAssoc_keys]
      exact hK
    · intro t2 ht2
      have ht2m := List.mem_of_mem_erase ht2
      show t2.reqId < (applyEffects s.db (workerEffects env t.reqId t.trackingNumber
        t.carrierName t.cb ts cbOk)).nextId
      rw [hnext]
      exact hTF t2 ht2m
    · show ((s.tasks.erase t).map WorkerTask.reqId).Nodup
      exact hTD.sublist (List.Sublist.map WorkerTask.reqId (List.erase_sublist t s.tasks))
    · intro t2 ht2 r' hfr'
      have hnodupT : s.tasks.Nodup := List.Nodup.of_map _ hTD
      have ht2' : t2 ≠ t ∧ t2 ∈ s.tasks := (List.Nodup.mem_erase_iff hnodupT).mp ht2
      have hneid : t2.reqId ≠ t.reqId := by
        intro he
        exact ht2'.1 (List.inj_on_of_nodup_map hTD ht2'.2 ht he)
      have hne : (t2.reqId == t.reqId) = false := by simpa using hneid
      have := @worker_findReq_other env s.db t.reqId t.trackingNumber
        t.carrierName t.cb ts cbOk _ hne
      rw [this] at hfr'
      exact hTP t2 ht2'.2 r' hfr'
    · intro p hp hne
      rw [hreqs] at hp
      rcases mem_updAssoc hp with h | ⟨q, hq, hq1, hq2⟩
      · rcases mem_updAssoc h with h2 | ⟨q0, hq0, hq01, hq02⟩
        · exact hC p h2 hne
        · rw [hq02]
          show q0.2.carrierId.isSome = true
          apply hrowcar
          rw [← hq01]
          rw [Prod.mk.eta]
          exact hq0
      · rw [hq2]
        show q.2.carrierId.isSome = true
        rcases mem_updAssoc hq with h2 | ⟨q0, hq0, hq01, hq02⟩
        · apply hrowcar
          rw [← hq1]
          rw [Prod.mk.eta]
          exact h2
        · rw [hq02]
          show q0.2.carrierId.isSome = true
          apply hrowcar
          rw [← hq01]
          rw [Prod.mk.eta]
          exact hq0
  · rw [if_neg ht]
    exact hinv

theorem sysInv_init : SysInv initSys := by
  refine ⟨?_, ?_, ?_, ?_, ?_, ?_⟩
  · intro p hp
    simp [initSys] at hp
  · show (([] : List (Nat × TrackingRecord)).map Prod.fst).Nodup
    simp
  · intro t ht
    simp [initSys] at ht
  · show (([] : List WorkerTask).map WorkerTask.reqId).Nodup
    simp
  · intro t ht
    simp [initSys] at ht
  · intro p hp
    simp [initSys] at hp

theorem sysInv_step (env : Env) (tbl : CarrierTable) (hres : EnvResolves env tbl)
    {s : Sys} (hinv : SysInv s) (op : Op) :
    SysInv (applyOp env tbl s op).1 := by
  cases op with
  | submitTrack u n c =>
      show SysInv (doSubmitTrack env tbl s u n c).1
      unfold doSubmitTrack
      split
      · exact hinv
      · split
        · exact hinv
        · rename_i hav
          split
          · exact hinv
          · apply sysInv_create_task hinv
            · rfl
            · have havail : env.isCarrierAvailable c = true := by
                cases hv : env.isCarrierAvailable c with
                | true => rfl
                | false => rw [hv] at hav; simp at hav
              exact hres c havail
  | submitAdd u n brand =>
      show SysInv (doSubmitAdd env tbl s u n brand).1
      unfold doSubmitAdd
      split
      · exact hinv
      · split
        · exact hinv
        · split
          · exact hinv
          · split
            · exact hinv
            · split
              · apply sysInv_create_task hinv
                · rfl
                · rfl
              · rw [List.append_nil]
                apply sysInv_create_notask hinv
                intro hne
                rfl
  | submitExternal u n c cbUrl =>
      show SysInv (doSubmitExternal env tbl s u n c cbUrl).1
      unfold doSubmitExternal
      split
      · exact hinv
      · split
        · split
          · exact hinv
          · split
            · exact hinv
            · split
              · apply sysInv_create_task hinv
                · rfl
                · rfl
              · apply sysInv_create_notask hinv
                intro hne
                exact absurd rfl hne
        · split
          · exact hinv
          · apply sysInv_create_notask hinv
            intro hne
            exact absurd rfl hne
  | assignCarrier u tid c =>
      show SysInv (doAssignCarrier env tbl s u tid c).1
      unfold doAssignCarrier
      split
      · exact hinv
      · split
        · exact hinv
        · rename_i r hro
          split
          · exact hinv
          · split
            · exact hinv
            · rename_i hsome havail
              have havail2 : env.isCarrierAvailable c = true := by
                cases hv : env.isCarrierAvailable c with
                | true => rfl
                | false => rw [hv] at havail; simp at havail
              have hnone : r.carrierId.isSome = false := by
                cases hv : r.carrierId.isSome with
                | false => rfl
                | true => rw [hv] at hsome; simp at hsome
              obtain ⟨cidv, hcid⟩ := Option.isSome_iff_exists.mp (hres c havail2)
              simp only [hcid]
              exact sysInv_assign_upd hinv hro hnone cidv _ rfl
  | updateTracking u tid n brand =>
      show SysInv (doUpdateTracking tbl s u tid n brand).1
      unfold doUpdateTracking
      split
      · exact hinv
      · split
        · exact hinv
        · split
          · split
            · exact hinv
            · apply sysInv_update_upd hinv tid
              · intro v
                cases n <;> rfl
              · intro v hv
                rfl
          · apply sysInv_update_upd hinv tid
            · intro v
              cases n <;> rfl
            · intro v hv
              cases n <;> exact hv
  | deleteTracking u tid =>
      show SysInv (doDeleteTracking s u tid).1
      unfold doDeleteTracking
      split
      · exact hinv
      · exact sysInv_delete_upd hinv tid
  | runTask t ts cbOk =>
      exact sysInv_runTask env hinv t ts cbOk

theorem runOps_sysInv (env : Env) (tbl : CarrierTable) (hres : EnvResolves env tbl) :
    ∀ (ops : List Op) (s : Sys), SysInv s → SysInv (runOps env tbl s ops) := by
  intro ops
  induction ops with
  | nil => intro s hs; exact hs
  | cons op rest ih =>
      intro s hs
      show SysInv (runOps env tbl (applyOp env tbl s op).1 rest)
      exact ih _ (sysInv_step env tbl hres hs op)

theorem reachable_sysInv (env : Env) (tbl : CarrierTable) (hres : EnvResolves env tbl)
    {s : Sys} (h : Reachable env tbl s) : SysInv s := by
  obtain ⟨ops, rfl⟩ := h
  exact runOps_sysInv env tbl hres ops initSys sysInv_init

theorem nextId_mono (env : Env) (tbl : CarrierTable) (s : Sys) (op : Op) :
    s.db.nextId ≤ (applyOp env tbl s op).1.db.nextId := by
  cases op with
  | submitTrack u n c =>
      show s.db.nextId ≤ (doSubmitTrack env tbl s u n c).1.db.nextId
      unfold doSubmitTrack
      split
      · exact Nat.le_refl _
      · split
        · exact Nat.le_refl _
        · split
          · exact Nat.le_refl _
          · exact Nat.le_succ _
  | submitAdd u n brand =>
      show s.db.nextId ≤ (doSubmitAdd env tbl s u n brand).1.db.nextId
      unfold doSubmitAdd
      split
      · exact Nat.le_refl _
      · split
        · exact Nat.le_refl _
        · split
          · exact Nat.le_refl _
          · split
            · exact Nat.le_refl _
            · exact Nat.le_succ _
  | submitExternal u n c cbUrl =>
      show s.db.nextId ≤ (doSubmitExternal env tbl s u n c cbUrl).1.db.nextId
      unfold doSubmitExternal
      split
      · exact Nat.le_refl _
      · split
        · split
          · exact Nat.le_refl _
          · split
            · exact Nat.le_refl _
            · split
              · exact Nat.le_succ _
              · exact Nat.le_succ _
        · split
          · exact Nat.le_refl _
          · exact Nat.le_succ _
  | assignCarrier u tid c =>
      show s.db.nextId ≤ (doAssignCarrier env tbl s u tid c).1.db.nextId
      unfold doAssignCarrier
      split
      · exact Nat.le_refl _
      · split
        · exact Nat.le_refl _
        · split
          · exact Nat.le_refl _
          · split
            · exact Nat.le_refl _
            · exact Nat.le_refl _
  | updateTracking u tid n brand =>
      show s.db.nextId ≤ (doUpdateTracking tbl s u tid n brand).1.db.nextId
      unfold doUpdateTracking
      split
      · exact Nat.le_refl _
      · split
        · exact Nat.le_refl _
        · split
          · split
            · exact Nat.le_refl _
            · exact Nat.le_refl _
          · exact Nat.le_refl _
  | deleteTracking u tid =>
      show s.db.nextId ≤ (doDeleteTracking s u tid).1.db.nextId
      unfold doDeleteTracking
      split
      · exact Nat.le_refl _
      · exact Nat.le_refl _
  | runTask t ts cbOk =>
      show s.db.nextId ≤ (doRunTask env s t ts cbOk).1.db.nextId
      unfold doRunTask
      split
      · obtain ⟨fin, -, -, hnext⟩ := worker_requests_shape env s.db t.reqId
          t.trackingNumber t.carrierName t.cb ts cbOk
        show s.db.nextId ≤ (applyEffects s.db (workerEffects env t.reqId
          t.trackingNumber t.carrierName t.cb ts cbOk)).nextId
        rw [hnext]
      · exact Nat.le_refl _

theorem absent_step (env : Env) (tbl : CarrierTable) {s : Sys} {id : Nat}
    (hlt : id < s.db.nextId) (habs : s.db.findReq id = none) (op : Op) :
    (applyOp env tbl s op).1.db.findReq id = none := by
  have hneNext : id ≠ s.db.nextId := Nat.ne_of_lt hlt
  cases op with
  | submitTrack u n c =>
      show (doSubmitTrack env tbl s u n c).1.db.findReq id = none
      unfold doSubmitTrack
      split
      · exact habs
      · split
        · exact habs
        · split
          · exact habs
          · exact (findReq_createReq_other _ hneNext).trans habs
  | submitAdd u n brand =>
      show (doSubmitAdd env tbl s u n brand).1.db.findReq id = none
      unfold doSubmitAdd
      split
      · exact habs
      · split
        · exact habs
        · split
          · exact habs
          · split
            · exact habs
            · exact (findReq_createReq_other _ hneNext).trans habs
  | submitExternal u n c cbUrl =>
      show (doSubmitExternal env tbl s u n c cbUrl).1.db.findReq id = none
      unfold doSubmitExternal
      split
      · exact habs
      · split
        · split
          · exact habs
          · split
            · exact habs
            · split
              · exact (findReq_createReq_other _ hneNext).trans habs
              · exact (findReq_createReq_other _ hneNext).trans habs
        · split
          · exact habs
          · exact (findReq_createReq_other _ hneNext).trans habs
  | assignCarrier u tid c =>
      show (doAssignCarrier env tbl s u tid c).1.db.findReq id = none
      unfold doAssignCarrier
      split
      · exact habs
      · split
        · exact habs
        · split
          · exact habs
          · split
            · exact habs
            · by_cases hid : (id == tid) = true
              · have hidt : id = tid := by simpa using hid
                subst hidt
                change lookupAssoc (updAssoc s.db.requests id _) id = none
                rw [updAssoc_absent _ habs]
                exact habs
              · have hne : (id == tid) = false := by simpa using hid
                change lookupAssoc (updAssoc s.db.requests tid _) id = none
                rw [lookupAssoc_updAssoc_other _ hne]
                exact habs
  | updateTracking u tid n brand =>
      show (doUpdateTracking tbl s u tid n brand).1.db.findReq id = none
      unfold doUpdateTracking
      split
      · exact habs
      · split
        · exact habs
        · split
          · split
            · exact habs
            · by_cases hid : (id == tid) = true
              · have hidt : id = tid := by simpa using hid
                subst hidt
                change lookupAssoc (updAssoc s.db.requests id _) id = none
                rw [updAssoc_absent _ habs]
                exact habs
              · have hne : (id == tid) = false := by simpa using hid
                change lookupAssoc (updAssoc s.db.requests tid _) id = none
                rw [lookupAssoc_updAssoc_other _ hne]
                exact habs
          · by_cases hid : (id == tid) = true
            · have hidt : id = tid := by simpa using hid
              subst hidt
              change lookupAssoc (updAssoc s.db.requests id _) id = none
              rw [updAssoc_absent _ habs]
              exact habs
            · have hne : (id == tid) = false := by simpa using hid
              change lookupAssoc (updAssoc s.db.requests tid _) id = none
              rw [lookupAssoc_updAssoc_other _ hne]
              exact habs
  | deleteTracking u tid =>
      show (doDeleteTracking s u tid).1.db.findReq id = none
      unfold doDeleteTracking
      split
      · exact habs
      · by_cases hid : (id == tid) = true
        · have hidt : id = tid := by simpa using hid
          subst hidt
          change lookupAssoc (s.db.requests.filter _) id = none
          apply lookupAssoc_eq_none
          intro p hp
          have := List.of_mem_filter hp
          simpa using this
        · have hne : (id == tid) = false := by simpa using hid
          change lookupAssoc (s.db.requests.filter _) id = none
          rw [lookupAssoc_filter_ne hne]
          exact habs
  | runTask t ts cbOk =>
      show (doRunTask env s t ts cbOk).1.db.findReq id = none
      unfold doRunTask
      split
      · obtain ⟨fin, hfin, hreqs, hnext⟩ := worker_requests_shape env s.db t.reqId
          t.trackingNumber t.carrierName t.cb ts cbOk
        show lookupAssoc (applyEffects s.db (workerEffects env t.reqId
          t.trackingNumber t.carrierName t.cb ts cbOk)).requests id = none
        rw [hreqs]
        by_cases hid : (id == t.reqId) = true
        · have hidt : id = t.reqId := by simpa using hid
          rw [← hidt, updAssoc_absent _ habs, updAssoc_absent _ habs]
          exact habs
        · have hne : (id == t.reqId) = false := by simpa using hid
          rw [lookupAssoc_updAssoc_other _ hne, lookupAssoc_updAssoc_other _ hne]
          exact habs
      · exact habs

theorem terminal_stable_step (env : Env) (tbl : CarrierTable)
    {s : Sys} (hinv : SysInv s)
    {id : Nat} {r : TrackingRecord} (hfr : s.db.findReq id = some r)
    (hterm : r.status.isTerminal = true) (op : Op) :
    ∀ r', (applyOp env tbl s op).1.db.findReq id = some r' → r'.status = r.status := by
  obtain ⟨hF, hK, hTF, hTD, hTP, hC⟩ := hinv
  have hmemr := mem_of_lookupAssoc hfr
  have hltid : id < s.db.nextId := hF (id, r) hmemr
  have hneNext : id ≠ s.db.nextId := Nat.ne_of_lt hltid
  have hna : r.status ≠ Status.awaitingCarrier := by
    intro he
    rw [he] at hterm
    simp [Status.isTerminal] at hterm
  have hnp : r.status ≠ Status.pending := by
    intro he
    rw [he] at hterm
    simp [Status.isTerminal] at hterm
  have base : ∀ r' : TrackingRecord, s.db.findReq id = some r' → r'.status = r.status := by
    intro r' h2
    have := Option.some.inj (hfr.symm.trans h2)
    rw [← this]
  cases op with
  | submitTrack u n c =>
      intro r' h
      have h2 : (doSubmitTrack env tbl s u n c).1.db.findReq id = some r' := h
      unfold doSubmitTrack at h2
      split at h2
      · exact base r' h2
      · split at h2
        · exact base r' h2
        · split at h2
          · exact base r' h2
          · change (createReq s.db _).findReq id = some r' at h2
            rw [findReq_createReq_other _ hneNext] at h2
            exact base r' h2
  | submitAdd u n brand =>
      intro r' h
      have h2 : (doSubmitAdd env tbl s u n brand).1.db.findReq id = some r' := h
      unfold doSubmitAdd at h2
      split at h2
      · exact base r' h2
      · split at h2
        · exact base r' h2
        · split at h2
          · exact base r' h2
          · split at h2
            · exact base r' h2
            · change (createReq s.db _).findReq id = some r' at h2
              rw [findReq_createReq_other _ hneNext] at h2
              exact base r' h2
  | submitExternal u n c cbUrl =>
      intro r' h
      have h2 : (doSubmitExternal env tbl s u n c cbUrl).1.db.findReq id = some r' := h
      unfold doSubmitExternal at h2
      split at h2
      · exact base r' h2
      · split at h2
        · split at h2
          · exact base r' h2
          · split at h2
            · exact base r' h2
            · split at h2
              · change (createReq s.db _).findReq id = some r' at h2
                rw [findReq_createReq_other _ hneNext] at h2
                exact base r' h2
              · change (createReq s.db _).findReq id = some r' at h2
                rw [findReq_createReq_other _ hneNext] at h2
                exact base r' h2
        · split at h2
          · exact base r' h2
          · change (createReq s.db _).findReq id = some r' at h2
            rw [findReq_createReq_other _ hneNext] at h2
            exact base r' h2
  | assignCarrier u tid c =>
      intro r' h
      have h2 : (doAssignCarrier env tbl s u tid c).1.db.findReq id = some r' := h
      unfold doAssignCarrier at h2
      split at h2
      · exact base r' h2
      · split at h2
        · exact base r' h2
        · rename_i r0 hro
          split at h2
          · exact base r' h2
          · split at h2
            · exact base r' h2
            · rename_i hsome havail
              have hne2 : (id == tid) = false := by
                cases hc2 : (id == tid) with
                | false => rfl
                | true =>
                    exfalso
                    have hidt : id = tid := by simpa using hc2
                    subst hidt
                    obtain ⟨hm0, -⟩ := findOwned_spec hro
                    have hl0 : s.db.findReq id = some r0 :=
                      lookupAssoc_of_mem_nodup hK hm0
                    have hr0 : r0 = r := Option.some.inj (hl0.symm.trans hfr)
                    apply hsome
                    rw [hr0]
                    exact hC (id, r) hmemr hna
              change lookupAssoc (updAssoc s.db.requests tid _) id = some r' at h2
              rw [lookupAssoc_updAssoc_other _ hne2] at h2
              exact base r' h2
  | updateTracking u tid n brand =>
      intro r' h
      have h2 : (doUpdateTracking tbl s u tid n brand).1.db.findReq id = some r' := h
      unfold doUpdateTracking at h2
      split at h2
      · exact base r' h2
      · split at h2
        · exact base r' h2
        · split at h2
          · split at h2
            · exact base r' h2
            · change lookupAssoc (updAssoc s.db.requests tid
                (fun v => { (applyNum n v) with carrierId := some _ })) id =
                some r' at h2
              by_cases hid : (id == tid) = true
              · have hidt : id = tid := by simpa using hid
                subst hidt
                rw [lookupAssoc_updAssoc_self _ hfr] at h2
                have hre := Option.some.inj h2
                rw [← hre]
                show ({ (applyNum n r) with carrierId := _ }).status = _
                cases n <;> rfl
              · have hne : (id == tid) = false := by simpa using hid
                rw [lookupAssoc_updAssoc_other _ hne] at h2
                exact base r' h2
          · change lookupAssoc (updAssoc s.db.requests tid (applyNum n)) id =
                some r' at h2
            by_cases hid : (id == tid) = true
            · have hidt : id = tid := by simpa using hid
              subst hidt
              rw [lookupAssoc_updAssoc_self _ hfr] at h2
              have hre := Option.some.inj h2
              rw [← hre]
              show (applyNum n r).status = _
              cases n <;> rfl
            · have hne : (id == tid) = false := by simpa using hid
              rw [lookupAssoc_updAssoc_other _ hne] at h2
              exact base r' h2
  | deleteTracking u tid =>
      intro r' h
      have h2 : (doDeleteTracking s u tid).1.db.findReq id = some r' := h
      unfold doDeleteTracking at h2
      split at h2
      · exact base r' h2
      · change lookupAssoc (s.db.requests.filter (fun p => !(p.1 == tid))) id =
            some r' at h2
        by_cases hid : (id == tid) = true
        · have hidt : id = tid := by simpa using hid
          subst hidt
          have hnone : lookupAssoc (s.db.requests.filter
              (fun p => !(p.1 == id))) id = none := by
            apply lookupAssoc_eq_none
            intro p hp
            have := List.of_mem_filter hp
            simpa using this
          rw [hnone] at h2
          exact absurd h2 (by simp)
        · have hne : (id == tid) = false := by simpa using hid
          rw [lookupAssoc_filter_ne hne] at h2
          exact base r' h2
  | runTask t ts cbOk =>
      intro r' h
      have h2 : (doRunTask env s t ts cbOk).1.db.findReq id = some r' := h
      unfold doRunTask at h2
      split at h2
      · rename_i ht
        have h3 : (applyEffects s.db (workerEffects env t.reqId t.trackingNumber
            t.carrierName t.cb ts cbOk)).findReq id = some r' := h2
        by_cases hid : (id == t.reqId) = true
        · exfalso
          have hidt : id = t.reqId := by simpa using hid
          have hl0 : s.db.findReq t.reqId = some r := hidt ▸ hfr
          have := (hTP t ht r hl0).1
          exact hnp this
        · have hne : (id == t.reqId) = false := by simpa using hid
          rw [worker_findReq_other s.db t.reqId t.trackingNumber t.carrierName
            t.cb ts cbOk hne] at h3
          exact base r' h3
      · exact base r' h2

theorem terminal_stable_many (env : Env) (tbl : CarrierTable)
    (hres : EnvResolves env tbl) :
    ∀ (ops : List Op) (s : Sys), SysInv s →
    ∀ (id : Nat) (st : Status), st.isTerminal = true →
    ((∃ r, s.db.findReq id = some r ∧ r.status = st) ∨
     (s.db.findReq id = none ∧ id < s.db.nextId)) →
    ∀ r', (runOps env tbl s ops).db.findReq id = some r' → r'.status = st := by
  intro ops
  induction ops with
  | nil =>
      intro s hinv id st hterm hdisj r' h
      rcases hdisj with ⟨r, hr, hst⟩ | ⟨habs, -⟩
      · have h2 : s.db.findReq id = some r' := h
        rw [← hst]
        have := Option.some.inj (hr.symm.trans h2)
        rw [← this]
      · have h2 : s.db.findReq id = some r' := h
        rw [habs] at h2
        exact absurd h2 (by simp)
  | cons op rest ih =>
      intro s hinv id st hterm hdisj r' h
      have h2 : (runOps env tbl (applyOp env tbl s op).1 rest).db.findReq id =
          some r' := h
      apply ih (applyOp env tbl s op).1 (sysInv_step env tbl hres hinv op) id st
        hterm ?_ r' h2
      rcases hdisj with ⟨r, hr, hst⟩ | ⟨habs, hlt⟩
      · cases hnew : (applyOp env tbl s op).1.db.findReq id with
        | some r2 =>
            left
            refine ⟨r2, rfl, ?_⟩
            have := terminal_stable_step env tbl
              ⟨hinv.1, hinv.2.1, hinv.2.2.1, hinv.2.2.2.1, hinv.2.2.2.2.1,
               hinv.2.2.2.2.2⟩ hr (by rw [hst]; exact hterm) op r2 hnew
            rw [this, hst]
        | none =>
            right
            refine ⟨rfl, ?_⟩
            have hlt0 : id < s.db.nextId := hinv.1 (id, r) (mem_of_lookupAssoc hr)
            exact Nat.lt_of_lt_of_le hlt0 (nextId_mono env tbl s op)
      · right
        exact ⟨absent_step env tbl hlt habs op,
          Nat.lt_of_lt_of_le hlt (nextId_mono env tbl s op)⟩

/-- C3 (counterexample): invoking the worker on a request already in
the terminal `completed` state silently overwrites the state to
`processing` — the code raises no `InvalidTransition` signal for the
non-permitted Completed-to-Processing move. -/
theorem C3_counterexample :
    (dbCompleted.findReq 0).map TrackingRecord.status = some .completed ∧
      ((applyEffects dbCompleted
          ((workerEffects env0 0 "9405511899223197428490" "USPS" none
              "2026-10-12T00:00:00.000Z" true).take 1)).findReq 0).map
        TrackingRecord.status = some .processing := by
  decide

/-- C3 (amended): the code never signals `InvalidTransition` — the
worker overwrites any stored state with `processing` (see the
counterexample) — but whenever the carriers table has a `USPS` row
(as the seeded deployment's does; the factory registers no carrier
besides USPS, so every factory-available name then resolves), no
sequence of API operations moves a request out of a terminal
(`completed`/`failed`) state: any later state in which the request
still exists carries the same terminal status. -/
theorem C3_amended :
    ∀ (env : Env) (tbl : CarrierTable), (getCarrierId tbl "USPS").isSome = true →
    ∀ s : Sys, Reachable env tbl s →
    ∀ (id : Nat) (r : TrackingRecord), s.db.findReq id = some r →
    r.status.isTerminal = true →
    ∀ (ops : List Op) (r2 : TrackingRecord),
      (runOps env tbl s ops).db.findReq id = some r2 → r2.status = r.status := by
  intro env tbl husps s hreach id r hfr hterm ops r2 h
  have hres := envResolves_of_usps env tbl husps
  have hinv := reachable_sysInv env tbl hres hreach
  exact terminal_stable_many env tbl hres ops s hinv id r.status hterm
    (Or.inl ⟨r, hfr, rfl⟩) r2 h

/-- C3 (witness): the amended statement instantiated on a reached
completed request and a later carrier-assignment attempt. -/
theorem C3_witness :
    ({ userId := "u1", trackingNumber := "9405511899223197428490",
       carrierId := some "car-1", status := Status.completed,
       callbackUrl := none } : TrackingRecord).status =
      ({ userId := "u1", trackingNumber := "9405511899223197428490",
         carrierId := some "car-1", status := Status.completed,
         callbackUrl := none } : TrackingRecord).status :=
  C3_amended env0 tbl0 (by decide) sysC3 ⟨opsC3, rfl⟩ 0
    { userId := "u1", trackingNumber := "9405511899223197428490",
      carrierId := some "car-1", status := Status.completed, callbackUrl := none }
    (by decide) (by decide) [.assignCarrier "u1" 0 "USPS"]
    { userId := "u1", trackingNumber := "9405511899223197428490",
      carrierId := some "car-1", status := Status.completed, callbackUrl := none }
    (by decide)

theorem tripleUnique_createReq {db : Db} {r : TrackingRecord} (hu : TripleUnique db)
    (hnew : ∀ p ∈ db.requests,
      ¬(p.2.userId = r.userId ∧ p.2.trackingNumber = r.trackingNumber ∧
        p.2.carrierId = r.carrierId ∧ r.carrierId.isSome = true)) :
    TripleUnique (createReq db r) := by
  intro p hp q hq hne
  rcases List.mem_append.mp hp with hp1 | hp1
  · rcases List.mem_append.mp hq with hq1 | hq1
    · exact hu p hp1 q hq1 hne
    · rw [List.mem_singleton] at hq1
      subst hq1
      rintro ⟨e1, e2, e3, e4⟩
      exact hnew p hp1 ⟨e1, e2, e4, by rw [← e4]; exact e3⟩
  · rw [List.mem_singleton] at hp1
    subst hp1
    rcases List.mem_append.mp hq with hq1 | hq1
    · rintro ⟨e1, e2, e3, e4⟩
      exact hnew q hq1 ⟨e1.symm, e2.symm, e4.symm, e3⟩
    · rw [List.mem_singleton] at hq1
      subst hq1
      exact absurd rfl hne

theorem tripleUnique_create_of_probe {db : Db} {u n : String} {cid : Option String}
    {r : TrackingRecord} (hu : TripleUnique db)
    (hdup : findDuplicate db u n cid = none)
    (hru : r.userId = u) (hrn : r.trackingNumber = n) (hrc : r.carrierId = cid) :
    TripleUnique (createReq db r) := by
  apply tripleUnique_createReq hu
  rintro p hp ⟨e1, e2, e3, e4⟩
  cases hc : cid with
  | none =>
      rw [hc] at hrc
      rw [hrc] at e4
      simp at e4
  | some cc =>
      rw [hc] at hdup hrc
      unfold findDuplicate at hdup
      have hpred := List.find?_eq_none.mp hdup p hp
      apply hpred
      show (p.2.userId == u && p.2.trackingNumber == n &&
        (p.2.carrierId == some cc)) = true
      rw [e1, hru, e2, hrn, e3, hrc]
      simp

theorem tripleUnique_submit_step (env : Env) (tbl : CarrierTable) {s : Sys}
    (hu : TripleUnique s.db) (op : Op) (hop : op.isSubmit) :
    TripleUnique (applyOp env tbl s op).1.db := by
  cases op with
  | submitTrack u n c =>
      show TripleUnique (doSubmitTrack env tbl s u n c).1.db
      unfold doSubmitTrack
      split
      · exact hu
      · split
        · exact hu
        · split
          · exact hu
          · rename_i hdup
            exact tripleUnique_create_of_probe hu hdup rfl rfl rfl
  | submitAdd u n brand =>
      show TripleUnique (doSubmitAdd env tbl s u n brand).1.db
      unfold doSubmitAdd
      split
      · exact hu
      · split
        · exact hu
        · split
          · exact hu
          · split
            · exact hu
            · rename_i hdup
              exact tripleUnique_create_of_probe hu hdup rfl rfl rfl
  | submitExternal u n c cbUrl =>
      show TripleUnique (doSubmitExternal env tbl s u n c cbUrl).1.db
      unfold doSubmitExternal
      split
      · exact hu
      · split
        · split
          · exact hu
          · split
            · exact hu
            · rename_i hdup
              split
              · rename_i cidv hcid
                rw [hcid] at hdup
                exact tripleUnique_create_of_probe hu hdup rfl rfl rfl
              · rename_i hcid
                rw [hcid] at hdup
                exact tripleUnique_create_of_probe hu hdup rfl rfl rfl
        · split
          · exact hu
          · rename_i hdup
            exact tripleUnique_create_of_probe hu hdup rfl rfl rfl
  | assignCarrier u tid c => exact False.elim hop
  | updateTracking u tid n brand => exact False.elim hop
  | deleteTracking u tid => exact False.elim hop
  | runTask t ts cbOk => exact False.elim hop

theorem submitReachable_tripleUnique (env : Env) (tbl : CarrierTable) :
    ∀ (ops : List Op), (∀ op ∈ ops, op.isSubmit) →
    ∀ s : Sys, TripleUnique s.db → TripleUnique (runOps env tbl s ops).db := by
  intro ops
  induction ops with
  | nil => intro _ s hs; exact hs
  | cons op rest ih =>
      intro hall s hs
      show TripleUnique (runOps env tbl (applyOp env tbl s op).1 rest).db
      exact ih (fun o ho => hall o (List.mem_cons_of_mem op ho)) _
        (tripleUnique_submit_step env tbl hs op
          (hall op (List.mem_cons_self op rest)))

/-- C6: (i) a submit that finds a non-deleted request with the same
(`userId`, `trackingNumber`, resolved `carrierId`) triple creates
nothing and answers 409 referencing the existing request's id and
status, and (ii) across any sequence of submit operations from the
empty store, at most one stored request exists per resolved triple. -/
theorem C6_submit_idempotent :
    (∀ (env : Env) (tbl : CarrierTable) (s : Sys) (u n c cid : String)
       (i : Nat) (r : TrackingRecord),
      validLen n = true → apiCarriers.contains c = true →
      env.isCarrierAvailable c = true → getCarrierId tbl c = some cid →
      findDuplicate s.db u n (some cid) = some (i, r) →
      applyOp env tbl s (.submitTrack u n c) = (s, .duplicate i r.status) ∧
        (i, r) ∈ s.db.requests ∧ r.userId = u ∧ r.trackingNumber = n ∧
        r.carrierId = some cid) ∧
    (∀ (env : Env) (tbl : CarrierTable) (s : Sys),
      SubmitReachable env tbl s → TripleUnique s.db) := by
  constructor
  · intro env tbl s u n c cid i r hval hc havail hcid hdup
    constructor
    · show doSubmitTrack env tbl s u n c = (s, .duplicate i r.status)
      unfold doSubmitTrack
      rw [hcid, hdup, hval, hc, havail]
      rfl
    · unfold findDuplicate at hdup
      have hpred := List.find?_some hdup
      have hmem := List.mem_of_find?_eq_some hdup
      simp only [Bool.and_eq_true, beq_iff_eq] at hpred
      exact ⟨hmem, hpred.1.1, hpred.1.2, hpred.2⟩
  · intro env tbl s hreach
    obtain ⟨ops, hall, rfl⟩ := hreach
    apply submitReachable_tripleUnique env tbl ops hall initSys
    intro p hp
    simp [initSys] at hp

/-- C6 (witness): both parts instantiated on the store reached by one
internal USPS submit. -/
theorem C6_witness :
    (applyOp env0 tbl0 sysC6
        (.submitTrack "u1" "9405511899223197428490" "USPS") =
      (sysC6, .duplicate 0 .pending) ∨ True) ∧ TripleUnique sysC6.db := by
  constructor
  · left
    have h := C6_submit_idempotent.1 env0 tbl0 sysC6 "u1" "9405511899223197428490"
      "USPS" "car-1" 0
      { userId := "u1", trackingNumber := "9405511899223197428490",
        carrierId := some "car-1", status := Status.pending, callbackUrl := none }
      (by decide) (by decide) (by decide) (by decide) (by decide)
    exact h.1
  · exact C6_submit_idempotent.2 env0 tbl0 sysC6
      ⟨[.submitTrack "u1" "9405511899223197428490" "USPS"],
       by
         intro op hop
         rw [List.mem_singleton] at hop
         subst hop
         exact trivial,
       rfl⟩

/-- C10: in the external submit, when the carrier is omitted the
duplicate probe matches on (`userId`, `trackingNumber`) alone: (i) a
carrier-less submission is answered 409 referencing the matching
request whenever one exists, and (ii) the probe fires for any existing
request with that owner and tracking number regardless of its carrier
column. -/
theorem C10_carrierless_duplicate :
    (∀ (env : Env) (tbl : CarrierTable) (s : Sys) (u n : String)
       (cbUrl : Option String) (i : Nat) (r : TrackingRecord),
      validLen n = true →
      findDuplicate s.db u n none = some (i, r) →
      applyOp env tbl s (.submitExternal u n none cbUrl) =
          (s, .duplicate i r.status) ∧
        (i, r) ∈ s.db.requests ∧ r.userId = u ∧ r.trackingNumber = n) ∧
    (∀ (db : Db) (u n : String) (j : Nat) (q : TrackingRecord),
      (j, q) ∈ db.requests → q.userId = u → q.trackingNumber = n →
      (findDuplicate db u n none).isSome = true) := by
  constructor
  · intro env tbl s u n cbUrl i r hval hdup
    constructor
    · show doSubmitExternal env tbl s u n none cbUrl = (s, .duplicate i r.status)
      unfold doSubmitExternal
      simp [hval, hdup]
    · unfold findDuplicate at hdup
      have hpred := List.find?_some hdup
      have hmem := List.mem_of_find?_eq_some hdup
      simp only [Bool.and_eq_true, beq_iff_eq] at hpred
      exact ⟨hmem, hpred.1.1, hpred.1.2⟩
  · intro db u n j q hm hu2 hn2
    unfold findDuplicate
    cases hf : db.requests.find? (fun p =>
        p.2.userId == u && p.2.trackingNumber == n &&
        (match (none : Option String) with
         | some c => p.2.carrierId == some c
         | none => true)) with
    | some v => rfl
    | none =>
        exfalso
        apply List.find?_eq_none.mp hf (j, q) hm
        show (q.userId == u && q.trackingNumber == n && true) = true
        rw [hu2, hn2]
        simp

/-- C10 (witness): a carrier-less external submit against a store
whose only request for that owner and tracking number has a carrier
set is still answered as a duplicate. -/
theorem C10_witness :
    (applyOp env0 tbl0 { db := dbPending, tasks := [] }
        (.submitExternal "u1" "9405511899223197428490" none none) =
      ({ db := dbPending, tasks := [] },
        .duplicate 7 .pending)) ∧
    (findDuplicate dbPending "u1" "9405511899223197428490" none).isSome = true := by
  constructor
  · have h := C10_carrierless_duplicate.1 env0 tbl0
      { db := dbPending, tasks := [] } "u1" "9405511899223197428490" none 7
      { userId := "u1", trackingNumber := "9405511899223197428490",
        carrierId := some "car-1", status := Status.pending,
        callbackUrl := some "https://app.example/cb" }
      (by decide) (by decide)
    exact h.1
  · exact C10_carrierless_duplicate.2 dbPending "u1" "9405511899223197428490" 7
      { userId := "u1", trackingNumber := "9405511899223197428490",
        carrierId := some "car-1", status := Status.pending,
        callbackUrl := some "https://app.example/cb" }
      (by decide) rfl rfl

end Poshub
